import Mathlib

/-!
Verification development for the model-serving API layer.

Two parts of the repository are embedded here:

* `hritik/client/client.go`: the HTTP client with `Do` and `MakeRequestWithRetry`;
* `piplani/inference/inference.go`: the `Completion` / `ChatCompletion` handlers with
  their server-sent-event relay.

Effects (transport calls, sleeps, writes, metric records) are made explicit as an
event trace that every operation extends, so that "how many attempts", "how many
sleeps" and "which bytes" become statements about lists.
-/

namespace Client

/-- An `*http.Request` as far as the client looks at it. -/
structure Request where
  Method : String
  URL : String
  Header : List (String × String)
deriving DecidableEq, Repr

/-- An `*http.Response`: the status code, and what reading `resp.Body` to its end
gives (the bytes, or the read error). -/
structure Response where
  StatusCode : Int
  Body : Except String String

/-- Observable effects of the client, in program order. -/
inductive Event
  | newRequest (method url : String)
  | roundTrip (req : Request)
  | readBody
  | closeBody
  | deferredClose
  | sleep (d : Int)
deriving DecidableEq, Repr

/-- The world outside the client: `http.NewRequest`, and what the k-th call of
`c.httpClient.Do` (counted from 0) answers to a request. -/
structure Net where
  NewRequest : String → String → Except String Request
  RoundTrip : Nat → Request → Except String Response

def Event.isRoundTrip : Event → Bool
  | .roundTrip _ => true
  | _ => false

def Event.isSleep : Event → Bool
  | .sleep _ => true
  | _ => false

def Event.isNewRequest : Event → Bool
  | .newRequest _ _ => true
  | _ => false

/-- Number of `c.httpClient.Do` calls recorded in a trace: the HTTP attempts. -/
def attempts (tr : List Event) : Nat := tr.countP Event.isRoundTrip

/-- Number of `time.Sleep` calls recorded in a trace. -/
def sleeps (tr : List Event) : Nat := tr.countP Event.isSleep

/-- Number of `http.NewRequest` calls recorded in a trace. -/
def builds (tr : List Event) : Nat := tr.countP Event.isNewRequest

/-- What `Do` returns: `(resp, body, err)`, each possibly nil. -/
structure DoResult where
  resp : Option Response
  body : Option String
  err : Option String

/-- The call `req.Header.Set(key, value)`. -/
def Request.setHeader (req : Request) (key value : String) : Request :=
  { req with Header := (req.Header.filter (fun kv => kv.1 != key)) ++ [(key, value)] }

/-- The loop `for key, value := range headers { req.Header.Set(key, value) }` of
client.go 66-68: the request every attempt sends. -/
def sentRequest (headers : List (String × String)) (req0 : Request) : Request :=
  headers.foldl (fun r kv => r.setHeader kv.1 kv.2) req0

/-- The method `client.Do` (client.go 41-57). The context only decorates the request and is left
out. The transport call is the next `c.httpClient.Do`; on success the body is read to
its end and closed by the deferred `resp.Body.Close()` before `Do` returns. -/
def Do (net : Net) (tr : List Event) (req : Request) : DoResult × List Event :=
  match net.RoundTrip (attempts tr) req with
  | .error err => (⟨none, none, some err⟩, tr ++ [.roundTrip req])
  | .ok resp =>
    match resp.Body with
    | .ok bytes => (⟨some resp, some bytes, none⟩, tr ++ [.roundTrip req, .readBody, .closeBody])
    | .error err => (⟨some resp, none, some err⟩, tr ++ [.roundTrip req, .readBody, .closeBody])

/-- The test of client.go line 71:
`err == nil && resp != nil && resp.StatusCode == http.StatusOK`. -/
def attemptOK (r : DoResult) : Bool :=
  match r.err, r.resp with
  | none, some resp => resp.StatusCode == 200
  | _, _ => false

/-- Leaving `MakeRequestWithRetry`: the deferred closures run (each closes the body of
the response currently held in `resp`, when there is one), then `result` is returned. -/
def leave (resp : Option Response) (defers : Nat) (result : Option String)
    (tr : List Event) : Option String × List Event :=
  match resp with
  | some _ => (result, tr ++ List.replicate defers .deferredClose)
  | none => (result, tr)

/-- The `for i := 0; i < maxRetries; i++` loop of `MakeRequestWithRetry`
(client.go 61-83), from iteration `i` on. `resp` is the function-level variable,
`defers` the number of deferred closures registered so far. The loop is unrolled at
most `fuel` times; `none` means the fuel ran out before the loop ended. -/
def retryLoop (net : Net) (url method : String) (headers : List (String × String))
    (maxRetries : Int) (retryDelay : Int) :
    Nat → Int → Option Response → Nat → List Event → Option (Option String × List Event)
  | 0, i, resp, defers, tr =>
    if i < maxRetries then none
    else some (leave resp defers (some "failed to make request after multiple retries") tr)
  | fuel + 1, i, resp, defers, tr =>
    if i < maxRetries then
      match net.NewRequest method url with
      | .error err => some (leave resp defers (some err) (tr ++ [.newRequest method url]))
      | .ok req0 =>
        let req := sentRequest headers req0
        let out := Do net (tr ++ [.newRequest method url]) req
        if attemptOK out.1 then
          some (leave out.1.resp defers none out.2)
        else
          let tr2 := if i < maxRetries then out.2 ++ [.sleep retryDelay] else out.2
          retryLoop net url method headers maxRetries retryDelay fuel (i + 1) out.1.resp
            (defers + 1) tr2
    else some (leave resp defers (some "failed to make request after multiple retries") tr)

/-- The method `client.MakeRequestWithRetry` (client.go 59-86): the returned error (`none` is nil)
and the trace of effects. The loop runs at most `maxRetries` times, which is the fuel
given to it. -/
def MakeRequestWithRetry (net : Net) (url method : String)
    (headers : List (String × String)) (maxRetries : Int) (retryDelay : Int) :
    Option (Option String × List Event) :=
  retryLoop net url method headers maxRetries retryDelay maxRetries.toNat 0 none 0 []

/-- What the k-th attempt (from 0) gets back from `Do`: the result of `Do` on the sent
request in a trace that holds k earlier transport calls. -/
def attemptResult (net : Net) (headers : List (String × String)) (req0 : Request)
    (k : Nat) : DoResult :=
  (Do net (List.replicate k (.roundTrip (sentRequest headers req0)))
    (sentRequest headers req0)).1

/-- A server that answers 500 to the first `failures` calls and 200 afterwards, for
any well-formed request; request construction fails on the URL ":" only. -/
def flakyNet (failures : Nat) : Net where
  NewRequest := fun method url =>
    if url = ":" then .error "parse \":\": missing protocol scheme" else .ok ⟨method, url, []⟩
  RoundTrip := fun k _ =>
    if k < failures then .ok ⟨500, .ok "server error"⟩ else .ok ⟨200, .ok ""⟩

/-- A server that answers every call with the given status and an empty body. -/
def statusNet (status : Int) : Net where
  NewRequest := fun method url => .ok ⟨method, url, []⟩
  RoundTrip := fun _ _ => .ok ⟨status, .ok ""⟩

end Client

namespace Inference

/-- The type `enum.Engine`, a string type naming the backend runtime. -/
structure Engine where
  name : String
deriving DecidableEq, Repr

/-- The type `openai.CompletionRequest`, the fields the handler and its tests use. -/
structure CompletionRequest where
  Model : String
  Prompt : String
  Stream : Bool
deriving DecidableEq, Repr

/-- The type `openai.ChatCompletionRequest`, the fields the handler and its tests use. -/
structure ChatCompletionRequest where
  Model : String
  Messages : List String
  Stream : Bool
deriving DecidableEq, Repr

/-- A response value of the OpenAI SDK (`CompletionResponse`, `ChatCompletionResponse`,
`ChatCompletionStreamResponse`). The handlers read and write `ID` and `Model` only;
`Rest` stands for the remaining fields, which they pass through. -/
structure Response where
  ID : String
  Model : String
  Rest : String
deriving DecidableEq, Repr

/-- The error kinds of `common/errors` that occur in the inference controller. -/
inductive ErrorType
  | NotFoundError
  | BindingError
  | ParsingError
  | GenericError
deriving DecidableEq, Repr

/-- The `e.Error` value; `Type_` is its `Type` field. -/
structure Error where
  Type_ : ErrorType
  Msg : String
  Log : String
deriving DecidableEq, Repr

/-- A value stored in the gin context (Go `any`), by dynamic type. -/
inductive Value
  | completionRequest (r : CompletionRequest)
  | chatCompletionRequest (r : ChatCompletionRequest)
  | engine (e : Engine)
  | other (repr : String)
deriving DecidableEq, Repr

/-- The gin context as the handlers read it: `c.Get(key)`. -/
structure Context where
  Get : String → Option Value

/-- What one `stream.Recv()` returns: a chunk with a nil error, an error for which
`errors.Is(err, io.EOF)` holds, or any other error. -/
inductive RecvResult
  | chunk (r : Response)
  | eof
  | err (e : String)
deriving DecidableEq, Repr

/-- The argument of `response.HTTPResponse`. -/
structure HTTPResponseOptions where
  SuccMsg : String
  Err : Option Error
  Data : Option Response
  Raw : Bool
deriving DecidableEq, Repr

/-- Observable effects of a handler, in program order. -/
inductive Event
  | metric (modelName outcome : String)
  | httpResponse (opts : HTTPResponseOptions)
  | uuidNew
  | call (method : String)
  | recv
  | write (bytes : String)
  | flush
  | debug (msg : String)
  | streamClose
deriving DecidableEq, Repr

/-- The collaborators of a handler during one request: the value `uuid.New().String()`
yields, `json.Marshal` on a response, the four methods of the inference service (a
stream is given by what its k-th `Recv` returns, counted from 0), and whether the
close notification of the client connection has fired when gin polls it for the k-th
time. -/
structure Env where
  uuid : String
  marshal : Response → Except String String
  Completion : CompletionRequest → Engine → Except Error Response
  CompletionStream : CompletionRequest → Engine → Except Error (Nat → RecvResult)
  ChatCompletion : ChatCompletionRequest → Engine → Except Error Response
  ChatCompletionStream : ChatCompletionRequest → Engine → Except Error (Nat → RecvResult)
  clientGone : Nat → Bool

/-- Modelled from the spec: the constant `constants.EndpointEngine`, whose package is
not among the sources. The spec calls it the resolved engine the validator stores in the
context; the value is the key under which the tests store the engine. -/
def EndpointEngine : String := "endpointEngine"

/-- The `RecordInferenceMetrics` calls of a trace: model name and outcome of each. -/
def metrics (tr : List Event) : List (String × String) :=
  tr.filterMap (fun e => match e with
    | .metric m o => some (m, o)
    | _ => none)

/-- The `Write` calls of a trace: the byte strings handed to the client, in order. -/
def writes (tr : List Event) : List String :=
  tr.filterMap (fun e => match e with
    | .write b => some b
    | _ => none)

def Event.isRecv : Event → Bool
  | .recv => true
  | _ => false

def Event.isUuidNew : Event → Bool
  | .uuidNew => true
  | _ => false

/-- Number of `stream.Recv()` calls recorded in a trace. -/
def recvs (tr : List Event) : Nat := tr.countP Event.isRecv

/-- Number of `uuid.New()` calls recorded in a trace. -/
def uuids (tr : List Event) : Nat := tr.countP Event.isUuidNew

/-- The method `InferenceController.streamResponse` (inference.go 246-251). `Encoder.Encode`
writes the JSON text followed by a newline in one `Write`, and nothing when
marshalling fails; its error is dropped. -/
def streamResponse (env : Env) (tr : List Event) (response : Response) : List Event :=
  let tr1 := tr ++ [.write "data: "]
  let tr2 := match env.marshal response with
    | .ok js => tr1 ++ [.write (js ++ "\n")]
    | .error _ => tr1
  tr2 ++ [.write "\n"]

/-- The method `InferenceController.getEngineParam` (inference.go 253-269). -/
def getEngineParam (c : Context) (errMsg : String) : Except Error Engine :=
  match c.Get EndpointEngine with
  | none =>
    let msg := "failed retrieving engine param"
    .error ⟨.NotFoundError, errMsg ++ ": " ++ msg, msg⟩
  | some engineParam =>
    match engineParam with
    | .engine engine => .ok engine
    | _ => .error ⟨.ParsingError, errMsg,
        "engine should be one of tgi/vllm/nim. Please specify a valid engine"⟩

/-- The callback handed to `c.Stream` (inference.go 102-124 in `Completion`, 202-224 in
`ChatCompletion`; the two closures are the same text up to the name of the request
variable). `modelName` is the request's `Model`, `responseID` the ID generated before
the stream was opened. Returns whether to keep the stream open. -/
def relayStep (env : Env) (stream : Nat → RecvResult) (modelName responseID : String)
    (tr : List Event) : Bool × List Event :=
  match stream (recvs tr) with
  | .eof =>
    (false, tr ++ [.recv, .write "data: [DONE]\n\n",
      .debug ("Stream finished for request on endpoint: " ++ modelName),
      .metric modelName "success"])
  | .err e =>
    (false, tr ++ [.recv,
      .debug ("Stream error for request on endpoint: " ++ modelName ++ "; error " ++ e),
      .metric modelName "failure"])
  | .chunk response =>
    let response := if response.ID = "" then { response with ID := responseID } else response
    let response := { response with Model := modelName }
    (true, streamResponse env (tr ++ [.recv]) response)

/-- The loop of gin's `Context.Stream`, the library routine both handlers call: poll the
close notification of the client; when it has fired return true; otherwise run the
step, flush, and stop with false once the step asks to close. `k` counts the polls.
The loop is unrolled at most `fuel` times; `none` means the fuel ran out. -/
def Stream (clientGone : Nat → Bool) (step : List Event → Bool × List Event) :
    Nat → Nat → List Event → Option (Bool × List Event)
  | 0, _, _ => none
  | fuel + 1, k, tr =>
    if clientGone k then some (true, tr)
    else
      let out := step tr
      let tr2 := out.2 ++ [.flush]
      if !out.1 then some (false, tr2)
      else Stream clientGone step fuel (k + 1) tr2

/-- The handler `InferenceController.Completion` (inference.go 66-143): the trace of effects.
Latencies are not modelled. `fuel` bounds the iterations of the relay loop. -/
def Completion (env : Env) (c : Context) (fuel : Nat) : Option (List Event) :=
  let errMsg := "Completions request failed"
  let succMsg := "Completions request success"
  match c.Get "completionsRequest" with
  | none =>
    some [.metric "" "invalid",
      .httpResponse ⟨succMsg, some ⟨.NotFoundError, errMsg ++ ": failed retrieving request body",
        "failed retrieving request body"⟩, none, false⟩]
  | some completionsBody =>
    match completionsBody with
    | .completionRequest completionRequest =>
      match getEngineParam c errMsg with
      | .error err => some [.metric "" "invalid", .httpResponse ⟨"", some err, none, false⟩]
      | .ok engine =>
        if completionRequest.Stream then
          let responseID := env.uuid
          match env.CompletionStream completionRequest engine with
          | .error err =>
            some [.uuidNew, .call "CompletionStream",
              .metric completionRequest.Model "failure",
              .httpResponse ⟨"", some err, none, false⟩]
          | .ok stream =>
            (Stream env.clientGone (relayStep env stream completionRequest.Model responseID)
              fuel 0 [.uuidNew, .call "CompletionStream"]).map
              (fun out => out.2 ++ [.streamClose])
        else
          match env.Completion completionRequest engine with
          | .error err =>
            some [.call "Completion", .metric completionRequest.Model "failure",
              .httpResponse ⟨"", some err, none, false⟩]
          | .ok completionResponse =>
            let withID := if completionResponse.ID = ""
              then ({ completionResponse with ID := env.uuid }, [Event.uuidNew])
              else (completionResponse, [])
            let completionResponse := { withID.1 with Model := completionRequest.Model }
            some ([.call "Completion"] ++ withID.2 ++
              [.metric completionRequest.Model "success",
               .httpResponse ⟨succMsg, none, some completionResponse, true⟩])
    | _ =>
      some [.metric "" "invalid",
        .httpResponse ⟨succMsg, some ⟨.BindingError, errMsg, "failed parsing request body"⟩,
          none, false⟩]

/-- The handler `InferenceController.ChatCompletion` (inference.go 166-244): the trace of effects. -/
def ChatCompletion (env : Env) (c : Context) (fuel : Nat) : Option (List Event) :=
  let errMsg := "Chat completions request failed"
  let succMsg := "Chat completions request success"
  match c.Get "chatRequest" with
  | none =>
    some [.metric "" "invalid",
      .httpResponse ⟨succMsg, some ⟨.NotFoundError, errMsg ++ ": failed retrieving request body",
        "failed retrieving request body"⟩, none, false⟩]
  | some chatBody =>
    match chatBody with
    | .chatCompletionRequest chatRequest =>
      match getEngineParam c errMsg with
      | .error err => some [.metric "" "invalid", .httpResponse ⟨"", some err, none, false⟩]
      | .ok engine =>
        if chatRequest.Stream then
          let responseID := env.uuid
          match env.ChatCompletionStream chatRequest engine with
          | .error err =>
            some [.uuidNew, .call "ChatCompletionStream",
              .metric chatRequest.Model "failure",
              .httpResponse ⟨"", some err, none, false⟩]
          | .ok stream =>
            (Stream env.clientGone (relayStep env stream chatRequest.Model responseID)
              fuel 0 [.uuidNew, .call "ChatCompletionStream"]).map
              (fun out => out.2 ++ [.streamClose])
        else
          match env.ChatCompletion chatRequest engine with
          | .error err =>
            some [.call "ChatCompletion", .metric chatRequest.Model "failure",
              .httpResponse ⟨"", some err, none, false⟩]
          | .ok chatResponse =>
            let withID := if chatResponse.ID = ""
              then ({ chatResponse with ID := env.uuid }, [Event.uuidNew])
              else (chatResponse, [])
            let chatResponse := { withID.1 with Model := chatRequest.Model }
            some ([.call "ChatCompletion"] ++ withID.2 ++
              [.metric chatRequest.Model "success",
               .httpResponse ⟨succMsg, none, some chatResponse, true⟩])
    | _ =>
      some [.metric "" "invalid",
        .httpResponse ⟨succMsg, some ⟨.BindingError, errMsg, "failed parsing request body"⟩,
          none, false⟩]

/-- The chunk the relay hands to `streamResponse` for an upstream chunk: the session
ID when the upstream ID is empty, and the requested model name (lines 118-121). -/
def stamp (modelName responseID : String) (response : Response) : Response :=
  { (if response.ID = "" then { response with ID := responseID } else response) with
    Model := modelName }

/-- The `Write` calls of one data frame: what `streamResponse` writes for a chunk. -/
def frame (env : Env) (response : Response) : List String :=
  writes (streamResponse env [] response)

/-! ## Example collaborators -/

/-- Two upstream chunks: the first without an ID, the second with one. Both carry the
model name the upstream chose. -/
def demoChunks : List Response :=
  [⟨"", "upstream-model", "a"⟩, ⟨"cmpl-2", "upstream-model", "b"⟩]

/-- An upstream stream that yields the two demo chunks and then `last` on every further
`Recv`. -/
def demoStream (last : RecvResult) : Nat → RecvResult
  | 0 => .chunk ⟨"", "upstream-model", "a"⟩
  | 1 => .chunk ⟨"cmpl-2", "upstream-model", "b"⟩
  | _ => last

/-- A JSON encoding of a response, enough to run the handlers on. -/
def demoMarshal (r : Response) : Except String String :=
  .ok ("\x7b\"id\":\"" ++ r.ID ++ "\",\"model\":\"" ++ r.Model ++ "\",\"rest\":\""
    ++ r.Rest ++ "\"\x7d")

/-- Collaborators for the examples: the streams are `demoStream last`, the blocking
calls answer with a response that has no ID, and the client goes away as `gone` says. -/
def demoEnv (last : RecvResult) (gone : Nat → Bool) : Env where
  uuid := "3f2b1c9e-generated"
  marshal := demoMarshal
  Completion := fun _ _ => .ok ⟨"", "upstream-model", "a"⟩
  CompletionStream := fun _ _ => .ok (demoStream last)
  ChatCompletion := fun _ _ => .ok ⟨"", "upstream-model", "a"⟩
  ChatCompletionStream := fun _ _ => .ok (demoStream last)
  clientGone := gone

/-- A context as the validator leaves it for a streaming request to "endpoint_id" on
the vllm engine, with both request keys set. -/
def demoContext : Context where
  Get := fun key =>
    if key = "completionsRequest" then
      some (.completionRequest ⟨"endpoint_id", "text", true⟩)
    else if key = "chatRequest" then
      some (.chatCompletionRequest ⟨"endpoint_id", ["text"], true⟩)
    else if key = "endpointEngine" then some (.engine ⟨"vllm"⟩)
    else none

end Inference

namespace Inference

/-- Number of writes of the terminal sentinel "data: [DONE]\n\n" in a trace. -/
def sentinels (tr : List Event) : Nat := (writes tr).count "data: [DONE]\n\n"

/-- An upstream that yields the two demo chunks, then end-of-stream, and would yield a
further chunk on every `Recv` after that. -/
def resumingStream : Nat → RecvResult
  | 0 => .chunk ⟨"", "upstream-model", "a"⟩
  | 1 => .chunk ⟨"cmpl-2", "upstream-model", "b"⟩
  | 2 => .eof
  | _ => .chunk ⟨"cmpl-late", "upstream-model", "c"⟩

/-- Collaborators whose streams are `resumingStream`, with a client that stays. -/
def resumingEnv : Env where
  uuid := "3f2b1c9e-generated"
  marshal := demoMarshal
  Completion := fun _ _ => .ok ⟨"", "upstream-model", "a"⟩
  CompletionStream := fun _ _ => .ok resumingStream
  ChatCompletion := fun _ _ => .ok ⟨"", "upstream-model", "a"⟩
  ChatCompletionStream := fun _ _ => .ok resumingStream
  clientGone := fun _ => false

end Inference

namespace Inference

/-- The inference-service methods called in a trace, in order. -/
def calls (tr : List Event) : List String :=
  tr.filterMap (fun e => match e with
    | .call m => some m
    | _ => none)

/-- The response bodies handed to `response.HTTPResponse` as `Data` in a trace. -/
def responses (tr : List Event) : List Response :=
  tr.filterMap (fun e => match e with
    | .httpResponse opts => opts.Data
    | _ => none)

/-- A context with a given value under each of the three keys the handlers read. -/
def contextOf (completions chat engine : Option Value) : Context where
  Get := fun key =>
    if key = "completionsRequest" then completions
    else if key = "chatRequest" then chat
    else if key = "endpointEngine" then engine
    else none

/-- Collaborators whose blocking calls answer with `answer` and whose stream-opening
calls fail with `openErr`. -/
def blockingEnv (answer : Except Error Response) (openErr : Error) : Env where
  uuid := "3f2b1c9e-generated"
  marshal := demoMarshal
  Completion := fun _ _ => answer
  CompletionStream := fun _ _ => .error openErr
  ChatCompletion := fun _ _ => answer
  ChatCompletionStream := fun _ _ => .error openErr
  clientGone := fun _ => false

end Inference

namespace Health

/-- The status codes of the `enum` package that `CheckHealth` returns
(`enum.HealthyStatusCode`, `enum.CriticalStatusCode`, `enum.UnknownStatusCode`). -/
inductive HealthStatus
  | Healthy
  | Critical
  | Unknown
deriving DecidableEq, Repr

/-- Calls made on the underlying `IClient`, in program order. -/
inductive Call
  | setTimeout (d : Int)
  | doCall (req : Client.Request)
deriving DecidableEq, Repr

/-- The world outside the health client: `http.NewRequest`, and what the k-th `Do` call
on the underlying `IClient` (counted from 0) returns for a request. -/
structure Prober where
  NewRequest : String → String → Except String Client.Request
  Do : Nat → Client.Request → Client.DoResult

def Call.isDo : Call → Bool
  | .doCall _ => true
  | _ => false

def Call.isSetTimeout : Call → Bool
  | .setTimeout _ => true
  | _ => false

/-- Number of `Do` calls recorded in a trace: the transport calls of the probe. -/
def doCalls (tr : List Call) : Nat := tr.countP Call.isDo

/-- Modelled from the spec: the fixed per-call timeout of the health prober, "5
seconds", as a `time.Duration` in nanoseconds. The code of `CheckHealth` is not among
the sources. -/
def probeTimeout : Int := 5 * 1000000000

/-- Modelled from the spec: the classification of one attempt of the health prober,
whose code is not among the sources. An attempt that returns HTTP 200 is a success; a
non-200 status or a transport or timeout error is a failure. -/
def probeOK (r : Client.DoResult) : Bool :=
  match r.err, r.resp with
  | none, some resp => resp.StatusCode == 200
  | _, _ => false

/-- Modelled from the spec: the attempts of `CheckHealth`, whose code is not among the
sources: up to `remaining` more attempts run back-to-back; the first attempt that
succeeds gives Healthy and ends the probe, and when none is left the status is
Critical. -/
def probeLoop (p : Prober) (req : Client.Request) : Nat → List Call → HealthStatus × List Call
  | 0, tr => (.Critical, tr)
  | remaining + 1, tr =>
    if probeOK (p.Do (doCalls tr) req) then (.Healthy, tr ++ [.doCall req])
    else probeLoop p req remaining (tr ++ [.doCall req])

/-- Modelled from the spec: `CheckHealth(endpointURL)` of the health client, whose code
is not among the sources (only its tests are). The 5 second timeout is set on the
underlying client before the probe; one GET request to the URL is built, and when that
fails the status is Unknown at once; otherwise up to `maxAttempts` attempts are made
(`maxAttempts` stands for `constants.MaxServiceHealthAttempts`). -/
def CheckHealth (p : Prober) (maxAttempts : Nat) (endpointURL : String) :
    HealthStatus × List Call :=
  match p.NewRequest "GET" endpointURL with
  | .error _ => (.Unknown, [.setTimeout probeTimeout])
  | .ok req => probeLoop p req maxAttempts [.setTimeout probeTimeout]

/-- A prober for the examples: request construction fails on URLs that start with a
colon, and the endpoint answers 500 to the first `failures` calls and 200 afterwards. -/
def demoProber (failures : Nat) : Prober where
  NewRequest := fun method url =>
    if url.data.head? = some ':' then .error "missing protocol scheme"
    else .ok ⟨method, url, []⟩
  Do := fun k _ =>
    if k < failures then ⟨some ⟨500, .ok "no healthy upstream"⟩, some "no healthy upstream", none⟩
    else ⟨some ⟨200, .ok "live"⟩, some "live", none⟩

/-- A prober whose every call times out: a response value with no status and an error. -/
def timeoutProber : Prober where
  NewRequest := fun method url => .ok ⟨method, url, []⟩
  Do := fun _ _ => ⟨some ⟨0, .ok ""⟩, none, some "request timed out"⟩

end Health

namespace Catalog

/-- The type `dto.CreateCatalogRequest`: the two fields the uniqueness check reads;
`Rest` stands for the remaining fields. -/
structure CreateCatalogRequest where
  ModelName : String
  ModelRevision : String
  Rest : String
deriving DecidableEq, Repr

/-- The error kinds of `common/errors` that occur in the catalog controller. -/
inductive ErrorType
  | BindingError
  | ValidationError
  | DBError
  | GenericError
deriving DecidableEq, Repr

/-- The type `e.FieldValidationError`. -/
structure FieldValidationError where
  Field : String
  ErrMsg : String
deriving DecidableEq, Repr

/-- The `InternalErr` of an `e.Error`: an `e.FieldValidationErrorList`, or any other
error, given by its message. -/
inductive InternalError
  | fieldErrors (Errors : List FieldValidationError)
  | other (msg : String)
deriving DecidableEq, Repr

/-- The `e.Error` value; `Type_` is its `Type` field. -/
structure Error where
  Type_ : ErrorType
  InternalErr : Option InternalError
  Msg : String
deriving DecidableEq, Repr

/-- One filter of a `dto.ListOptions`. -/
structure Filter where
  Field : String
  Operator : String
  Values : List String
deriving DecidableEq, Repr

/-- The type `dto.ListOptions`, as far as the controller uses it: its filters. The zero
value has none. -/
structure ListOptions where
  Filters : List Filter
deriving DecidableEq, Repr

/-- The argument of `response.HTTPResponse`; `Data` holds the ID that `view.GetID`
wraps. -/
structure HTTPResponseOptions where
  SuccMsg : String
  Err : Option Error
  Data : Option String
deriving DecidableEq, Repr

/-- Observable effects of the catalog controller, in program order. -/
inductive Event
  | list (listOptions : ListOptions)
  | create (catalog : CreateCatalogRequest)
  | httpResponse (opts : HTTPResponseOptions)
deriving DecidableEq, Repr

/-- The collaborators of `CatalogController.Create`, none of which is among the
sources: the constants of the `constants` package, the helper
`dto.ListOptions.AddEqualToFiltersFromMap` (given the entries of its map argument and
the supported parameters), JSON binding of the request body, the struct validator
(`none` is a nil error), and the two methods of the catalog service that `Create`
calls, each with what it returns (a catalog entry of the list is given by its ID). -/
structure Env where
  ModelName : String
  ModelRevision : String
  CreatedBy : String
  SuperAdmin : String
  AddEqualToFiltersFromMap : ListOptions → List (String × List String) → List String
    → ListOptions
  ShouldBindJSON : String → Except String CreateCatalogRequest
  Struct : CreateCatalogRequest → Option String
  List : ListOptions → List String × Int × Option Error
  Create : CreateCatalogRequest → String × Option Error

/-- The catalog-service `Create` calls of a trace. -/
def creates (tr : List Event) : List CreateCatalogRequest :=
  tr.filterMap (fun e => match e with
    | .create catalog => some catalog
    | _ => none)

/-- The method `CatalogController.validateUniqueConstraints` (catalog.go 215-239): the
returned error (`none` is nil) and the trace extended by the lookup. -/
def validateUniqueConstraints (env : Env) (catalog : CreateCatalogRequest) (errMsg : String)
    (tr : List Event) : Option Error × List Event :=
  let supportedQueryParams := [env.ModelName, env.ModelRevision, env.CreatedBy]
  let listOptions := env.AddEqualToFiltersFromMap ⟨[]⟩
    [(env.ModelName, [catalog.ModelName]),
     (env.ModelRevision, [catalog.ModelRevision]),
     (env.CreatedBy, [env.SuperAdmin])] supportedQueryParams
  let out := env.List listOptions
  let tr1 := tr ++ [.list listOptions]
  match out.2.2 with
  | some err => (some err, tr1)
  | none =>
    if out.1.length > 0 then
      let modelNameErr : FieldValidationError :=
        ⟨"modelName", "ModelName with same ModelRevision already exists, provide different ModelName or ModelRevision"⟩
      (some ⟨.ValidationError, some (.fieldErrors [modelNameErr]), errMsg⟩, tr1)
    else (none, tr1)

/-- The handler `CatalogController.Create` (catalog.go 60-80) on a request body: the
trace of effects. -/
def Create (env : Env) (body : String) : List Event :=
  let errMsg := "Failed to create new catalog entry"
  match env.ShouldBindJSON body with
  | .error err =>
    [.httpResponse ⟨"", some ⟨.BindingError, some (.other err), errMsg⟩, none⟩]
  | .ok catalog =>
    match env.Struct catalog with
    | some err =>
      [.httpResponse ⟨"", some ⟨.ValidationError, some (.other err), errMsg⟩, none⟩]
    | none =>
      let checked := validateUniqueConstraints env catalog errMsg []
      match checked.1 with
      | some err => checked.2 ++ [.httpResponse ⟨"", some err, none⟩]
      | none =>
        let succMsg := "Catalog created successfully"
        let created := env.Create catalog
        checked.2 ++ [.create catalog, .httpResponse ⟨succMsg, created.2, some created.1⟩]

/-- The options of the uniqueness lookup for a request: equality filters on its model
name, its model revision and created-by = super admin (catalog.go 216-222). -/
def uniquenessOptions (env : Env) (catalog : CreateCatalogRequest) : ListOptions :=
  env.AddEqualToFiltersFromMap ⟨[]⟩
    [(env.ModelName, [catalog.ModelName]),
     (env.ModelRevision, [catalog.ModelRevision]),
     (env.CreatedBy, [env.SuperAdmin])]
    [env.ModelName, env.ModelRevision, env.CreatedBy]

/-- Collaborators for the examples: every body binds to the Mistral entry and
validates, the filter helper adds one equal-to filter per supported entry, and the
lookup answers with `found`. -/
def catalogEnv (found : List String × Int × Option Error) : Env where
  ModelName := "model_name"
  ModelRevision := "model_revision"
  CreatedBy := "created_by"
  SuperAdmin := "superadmin"
  AddEqualToFiltersFromMap := fun lo m supported =>
    ⟨lo.Filters ++ (m.filter (fun kv => supported.contains kv.1)).map
      (fun kv => ⟨kv.1, "eq", kv.2⟩)⟩
  ShouldBindJSON := fun _ => .ok ⟨"mistralai/Mistral-7B-Instruct-v0.2", "main", ""⟩
  Struct := fun _ => none
  List := fun _ => found
  Create := fun _ => ("123", none)

end Catalog

namespace Client

/-- The `*http.Client` held by the client, as far as the client uses it: its
`Timeout`, a `time.Duration`. -/
structure HTTPClient where
  Timeout : Int
deriving DecidableEq, Repr

/-- The `client` struct (client.go 21-23). -/
structure client where
  httpClient : HTTPClient
deriving DecidableEq, Repr

/-- The constructor `NewClient` (client.go 26-30): a zero `http.Client`. -/
def NewClient : client := ⟨⟨0⟩⟩

/-- The method `client.SetTimeout` (client.go 32-34): the client after the call. -/
def client.SetTimeout (c : client) (timeout : Int) : client :=
  { c with httpClient := { c.httpClient with Timeout := timeout } }

/-- The method `client.GetTimeout` (client.go 36-38). -/
def client.GetTimeout (c : client) : Int :=
  c.httpClient.Timeout

def Event.isReadBody : Event → Bool
  | .readBody => true
  | _ => false

def Event.isCloseBody : Event → Bool
  | .closeBody => true
  | _ => false

/-- Number of response bodies read to their end (or to a read error) in a trace. -/
def reads (tr : List Event) : Nat := tr.countP Event.isReadBody

/-- Number of response bodies closed by `Do` in a trace. -/
def closes (tr : List Event) : Nat := tr.countP Event.isCloseBody

/-- Number of responses obtained by the first `k` transport calls for `req`: the calls
that `c.httpClient.Do` answered without an error. -/
def obtained (net : Net) (req : Request) (k : Nat) : Nat :=
  (List.range k).countP (fun j => (net.RoundTrip j req).isOk)

/-- A server whose first call fails in transport, whose second call answers 500 with a
body that breaks while it is read, and which answers 200 afterwards. -/
def brokenNet : Net where
  NewRequest := fun method url => .ok ⟨method, url, []⟩
  RoundTrip := fun k _ =>
    match k with
    | 0 => .error "dial tcp: connection refused"
    | 1 => .ok ⟨500, .error "unexpected EOF"⟩
    | _ => .ok ⟨200, .ok "ok"⟩

end Client

namespace APIKey

/-- The type `dto.UserContext`, with the fields the tests set. Its zero value is
`dto.UserContext{}`. -/
structure UserContext where
  UserID : String
  UserName : String
  Role : String
deriving DecidableEq, Repr

/-- The type `dto.APIKeyCreateRequest`: the field the uniqueness check reads; `Rest`
stands for the remaining fields. -/
structure APIKeyCreateRequest where
  Name : String
  Rest : String
deriving DecidableEq, Repr

/-- The type `dto.APIKeyCreateResponse`. -/
structure APIKeyCreateResponse where
  GeneratedKey : String
  ID : String
deriving DecidableEq, Repr

/-- The argument of `response.HTTPResponse`; `Data` holds the generated key and the ID
that `view.GetAPIKeyValue` wraps. -/
structure HTTPResponseOptions where
  SuccMsg : String
  Err : Option Catalog.Error
  Data : Option (String × String)
deriving DecidableEq, Repr

/-- Observable effects of the API key controller, in program order. -/
inductive Event
  | list (userContext : UserContext) (listOptions : Catalog.ListOptions)
  | create (userContext : UserContext) (req : APIKeyCreateRequest)
  | httpResponse (opts : HTTPResponseOptions)
deriving DecidableEq, Repr

/-- The collaborators of `APIKeyController.Create`, none of which is among the sources:
the constants `constants.Name` and `constants.OwnerID`, the helper
`dto.ListOptions.AddEqualToFiltersFromMap`, JSON binding of the request body, the struct
validator (`none` is a nil error), and the two methods of the API key service that
`Create` calls, each with what it returns (a key of the list is given by its ID). -/
structure Env where
  Name : String
  OwnerID : String
  AddEqualToFiltersFromMap : Catalog.ListOptions → List (String × List String)
    → List String → Catalog.ListOptions
  ShouldBindJSON : String → Except String APIKeyCreateRequest
  Struct : APIKeyCreateRequest → Option String
  List : UserContext → Catalog.ListOptions → List String × Int × Option Catalog.Error
  Create : UserContext → APIKeyCreateRequest → APIKeyCreateResponse × Option Catalog.Error

/-- The API-key-service `Create` calls of a trace. -/
def creates (tr : List Event) : List (UserContext × APIKeyCreateRequest) :=
  tr.filterMap (fun e => match e with
    | .create u r => some (u, r)
    | _ => none)

/-- The API-key-service `List` calls of a trace. -/
def lists (tr : List Event) : List (UserContext × Catalog.ListOptions) :=
  tr.filterMap (fun e => match e with
    | .list u lo => some (u, lo)
    | _ => none)

/-- The method `APIKeyController.validateUniqueConstraints` (api_key.go 182-206): the
returned error (`none` is nil) and the trace extended by the lookup. -/
def validateUniqueConstraints (env : Env) (userContext : UserContext)
    (apiKeyCreateRequest : APIKeyCreateRequest) (errMsg : String) (tr : List Event) :
    Option Catalog.Error × List Event :=
  let supportedFields := [env.Name, env.OwnerID]
  let listOptions := env.AddEqualToFiltersFromMap ⟨[]⟩
    [(env.Name, [apiKeyCreateRequest.Name]),
     (env.OwnerID, [userContext.UserID])] supportedFields
  let out := env.List ⟨"", "", ""⟩ listOptions
  let tr1 := tr ++ [.list ⟨"", "", ""⟩ listOptions]
  match out.2.2 with
  | some err => (some err, tr1)
  | none =>
    if out.1.length > 0 then
      let field := "name"
      let fieldErrMsg := field ++ " already exists, please provide a different " ++ field
      let nameErr : Catalog.FieldValidationError := ⟨field, fieldErrMsg⟩
      (some ⟨.ValidationError, some (.fieldErrors [nameErr]), errMsg⟩, tr1)
    else (none, tr1)

/-- The handler `APIKeyController.Create` (api_key.go 58-81) on a request body, for the
user context that `getUserContext(c)` returns: the trace of effects. -/
def Create (env : Env) (userContext : UserContext) (body : String) : List Event :=
  let errMsg := "failed to create new API Key"
  let succMsg := "API Key created successfully"
  match env.ShouldBindJSON body with
  | .error err =>
    [.httpResponse ⟨"", some ⟨.BindingError, some (.other err), errMsg⟩, none⟩]
  | .ok apiKeyCreateRequest =>
    match env.Struct apiKeyCreateRequest with
    | some err =>
      [.httpResponse ⟨"", some ⟨.ValidationError, some (.other err), errMsg⟩, none⟩]
    | none =>
      let checked := validateUniqueConstraints env userContext apiKeyCreateRequest errMsg []
      match checked.1 with
      | some err => checked.2 ++ [.httpResponse ⟨"", some err, none⟩]
      | none =>
        let created := env.Create userContext apiKeyCreateRequest
        checked.2 ++ [.create userContext apiKeyCreateRequest,
          .httpResponse ⟨succMsg, created.2, some (created.1.GeneratedKey, created.1.ID)⟩]

/-- The options of the uniqueness lookup: equality filters on the requested name and on
the calling user as owner (api_key.go 183-188). -/
def uniquenessOptions (env : Env) (userContext : UserContext)
    (apiKeyCreateRequest : APIKeyCreateRequest) : Catalog.ListOptions :=
  env.AddEqualToFiltersFromMap ⟨[]⟩
    [(env.Name, [apiKeyCreateRequest.Name]),
     (env.OwnerID, [userContext.UserID])] [env.Name, env.OwnerID]

/-- Collaborators for the examples: every body binds to a request for the key "key1"
and validates, the filter helper adds one equal-to filter per supported entry, and the
lookup answers with `found`. -/
def apiKeyEnv (found : List String × Int × Option Catalog.Error) : Env where
  Name := "name"
  OwnerID := "owner_id"
  AddEqualToFiltersFromMap := fun lo m supported =>
    ⟨lo.Filters ++ (m.filter (fun kv => supported.contains kv.1)).map
      (fun kv => ⟨kv.1, "eq", kv.2⟩)⟩
  ShouldBindJSON := fun _ => .ok ⟨"key1", ""⟩
  Struct := fun _ => none
  List := fun _ _ => found
  Create := fun _ _ => (⟨"key", "1"⟩, none)

end APIKey

namespace Cluster

/-- The error kinds of `common/errors` that occur in `UpdateClusterConfig`. -/
inductive ErrorType
  | BindingError
  | ValidationError
  | InvalidValueError
  | DBError
deriving DecidableEq, Repr

/-- The `e.Error` value; `Type_` is its `Type` field, `InternalErr` the wrapped error
given by its message. -/
structure Error where
  Type_ : ErrorType
  InternalErr : Option String
  Msg : String
  Log : String
deriving DecidableEq, Repr

/-- The type `dto.EULAAcceptRequest`; `Accepted` is a `*bool`. -/
structure EULAAcceptRequest where
  Accepted : Option Bool
  Name : String
  Company : String
deriving DecidableEq, Repr

/-- The type `dto.PulseUpdateRequest`; `Accepted` is a `*bool`. -/
structure PulseUpdateRequest where
  Accepted : Option Bool
deriving DecidableEq, Repr

/-- The type `dto.LanguageUpdateRequest`. -/
structure LanguageUpdateRequest where
  Name : String
deriving DecidableEq, Repr

/-- The type `dto.ClusterConfigUpdateRequest`: three optional sections (pointers). -/
structure ClusterConfigUpdateRequest where
  EULA : Option EULAAcceptRequest
  Pulse : Option PulseUpdateRequest
  Language : Option LanguageUpdateRequest
deriving DecidableEq, Repr

/-- The type `dto.EULA`; `UpdatedAt` is a `*time.Time`. -/
structure EULA where
  Accepted : Bool
  UpdatedAt : Option Int
  Name : String
  Company : String
deriving DecidableEq, Repr

/-- The type `dto.Pulse`. -/
structure Pulse where
  Accepted : Bool
  UpdatedAt : Option Int
deriving DecidableEq, Repr

/-- The type `dto.Language`. -/
structure Language where
  Name : String
deriving DecidableEq, Repr

/-- The type `dto.ClusterConfig`: three optional sections (pointers); the zero value
has none. -/
structure ClusterConfig where
  EULA : Option EULA
  Pulse : Option Pulse
  Language : Option Language
deriving DecidableEq, Repr

/-- The argument of `response.HTTPResponse` in `UpdateClusterConfig`. -/
structure HTTPResponseOptions where
  SuccMsg : String
  Err : Option Error
deriving DecidableEq, Repr

/-- Observable effects of `UpdateClusterConfig`, in program order. -/
inductive Event
  | getConfig (listOptions : Catalog.ListOptions)
  | now
  | updateConfig (userContext : APIKey.UserContext) (clusterConfig : ClusterConfig)
  | httpResponse (opts : HTTPResponseOptions)
deriving DecidableEq, Repr

/-- The collaborators of `UpdateClusterConfig`, none of which is among the sources: the
constant `constants.Type` and the value `string(enum.ConfigTypeEULA)`, the helper
`dto.ListOptions.AddEqualToFiltersFromMap`, JSON binding of the request body, the struct
validator (`none` is a nil error), the two methods of the cluster service with what
they return, and the time the k-th `time.Now()` of the request yields. -/
structure Env where
  Type_ : String
  ConfigTypeEULA : String
  AddEqualToFiltersFromMap : Catalog.ListOptions → List (String × List String)
    → List String → Catalog.ListOptions
  ShouldBindJSON : String → Except String ClusterConfigUpdateRequest
  Struct : ClusterConfigUpdateRequest → Option String
  GetConfig : Catalog.ListOptions → ClusterConfig × Option Error
  UpdateConfig : APIKey.UserContext → ClusterConfig → Option Error
  Now : Nat → Int

def Event.isNow : Event → Bool
  | .now => true
  | _ => false

/-- Number of `time.Now()` calls recorded in a trace. -/
def nows (tr : List Event) : Nat := tr.countP Event.isNow

/-- The `clusterService.UpdateConfig` calls of a trace. -/
def updates (tr : List Event) : List (APIKey.UserContext × ClusterConfig) :=
  tr.filterMap (fun e => match e with
    | .updateConfig u cfg => some (u, cfg)
    | _ => none)

/-- The `clusterService.GetConfig` calls of a trace. -/
def getConfigs (tr : List Event) : List Catalog.ListOptions :=
  tr.filterMap (fun e => match e with
    | .getConfig lo => some lo
    | _ => none)

/-- The method `ClusterController.buildEULAConfig` (cluster.go 167-193): the returned
error (`none` is nil), the cluster configuration after the call and the extended
trace. A dereference of a nil pointer (the stored configuration without an EULA
section, a request without `accepted`) is the outcome `.error`. -/
def buildEULAConfig (env : Env) (eulaUpdateRequest : EULAAcceptRequest)
    (clusterConfig : ClusterConfig) (tr : List Event) :
    Except String (Option Error × ClusterConfig × List Event) :=
  let supportedQueryParams := ["type"]
  let listOptions := env.AddEqualToFiltersFromMap ⟨[]⟩
    [(env.Type_, [env.ConfigTypeEULA])] supportedQueryParams
  let out := env.GetConfig listOptions
  let tr1 := tr ++ [.getConfig listOptions]
  match out.2 with
  | some err => .ok (some err, clusterConfig, tr1)
  | none =>
    match out.1.EULA with
    | none => .error "nil pointer dereference"
    | some current =>
      if current.Accepted then
        let msg := "Cannot update already accepted eula"
        .ok (some ⟨.InvalidValueError, none, msg, msg⟩, clusterConfig, tr1)
      else
        let currentTime := env.Now (nows tr1)
        match eulaUpdateRequest.Accepted with
        | none => .error "nil pointer dereference"
        | some accepted =>
          .ok (none,
            { clusterConfig with
              EULA := some ⟨accepted, some currentTime, eulaUpdateRequest.Name,
                eulaUpdateRequest.Company⟩ },
            tr1 ++ [.now])

/-- The method `ClusterController.buildPulseConfig` (cluster.go 195-201). -/
def buildPulseConfig (env : Env) (pulseUpdateRequest : PulseUpdateRequest)
    (clusterConfig : ClusterConfig) (tr : List Event) :
    Except String (ClusterConfig × List Event) :=
  let currentTime := env.Now (nows tr)
  match pulseUpdateRequest.Accepted with
  | none => .error "nil pointer dereference"
  | some accepted =>
    .ok ({ clusterConfig with Pulse := some ⟨accepted, some currentTime⟩ }, tr ++ [.now])

/-- The method `ClusterController.buildLanguageConfig` (cluster.go 203-207). -/
def buildLanguageConfig (languageUpdateRequest : LanguageUpdateRequest)
    (clusterConfig : ClusterConfig) : ClusterConfig :=
  { clusterConfig with Language := some ⟨languageUpdateRequest.Name⟩ }

/-- Lines 155-164 of `UpdateClusterConfig`: the Pulse and Language sections, then the
call of `clusterService.UpdateConfig` and the response. -/
def finishUpdate (env : Env) (userContext : APIKey.UserContext)
    (clusterConfigUpdateRequest : ClusterConfigUpdateRequest) (clusterConfig : ClusterConfig)
    (tr : List Event) : Except String (List Event) :=
  let succMsg := "Cluster config info updated successfully"
  let afterPulse : Except String (ClusterConfig × List Event) :=
    match clusterConfigUpdateRequest.Pulse with
    | some pulse => buildPulseConfig env pulse clusterConfig tr
    | none => .ok (clusterConfig, tr)
  match afterPulse with
  | .error p => .error p
  | .ok (cfg1, tr1) =>
    let cfg2 := match clusterConfigUpdateRequest.Language with
      | some language => buildLanguageConfig language cfg1
      | none => cfg1
    let err := env.UpdateConfig userContext cfg2
    .ok (tr1 ++ [.updateConfig userContext cfg2, .httpResponse ⟨succMsg, err⟩])

/-- The handler `ClusterController.UpdateClusterConfig` (cluster.go 131-165) on a
request body, for the user context that `getUserContext(c)` returns: the trace of
effects, or `.error` when the handler panics on a nil pointer. -/
def UpdateClusterConfig (env : Env) (userContext : APIKey.UserContext) (body : String) :
    Except String (List Event) :=
  let errMsg := "Failed to update cluster config"
  let succMsg := "Cluster config info updated successfully"
  match env.ShouldBindJSON body with
  | .error err => .ok [.httpResponse ⟨"", some ⟨.BindingError, some err, errMsg, ""⟩⟩]
  | .ok clusterConfigUpdateRequest =>
    match env.Struct clusterConfigUpdateRequest with
    | some err =>
      .ok [.httpResponse ⟨succMsg, some ⟨.ValidationError, some err, errMsg, ""⟩⟩]
    | none =>
      let clusterConfig : ClusterConfig := ⟨none, none, none⟩
      match clusterConfigUpdateRequest.EULA with
      | some eula =>
        match buildEULAConfig env eula clusterConfig [] with
        | .error p => .error p
        | .ok (some err, _, tr) => .ok (tr ++ [.httpResponse ⟨succMsg, some err⟩])
        | .ok (none, cfg, tr) =>
          finishUpdate env userContext clusterConfigUpdateRequest cfg tr
      | none => finishUpdate env userContext clusterConfigUpdateRequest clusterConfig []

/-- The options of the lookup of the stored EULA (cluster.go 168-172). -/
def eulaOptions (env : Env) : Catalog.ListOptions :=
  env.AddEqualToFiltersFromMap ⟨[]⟩ [(env.Type_, [env.ConfigTypeEULA])] ["type"]

/-- Collaborators for the examples: every body binds to `req` and validates, the stored
configuration is `stored` (read with error `getErr`), and updates succeed. -/
def clusterEnv (req : ClusterConfigUpdateRequest) (stored : ClusterConfig)
    (getErr : Option Error) : Env where
  Type_ := "type"
  ConfigTypeEULA := "eula"
  AddEqualToFiltersFromMap := fun lo m supported =>
    ⟨lo.Filters ++ (m.filter (fun kv => supported.contains kv.1)).map
      (fun kv => ⟨kv.1, "eq", kv.2⟩)⟩
  ShouldBindJSON := fun _ => .ok req
  Struct := fun _ => none
  GetConfig := fun _ => (stored, getErr)
  UpdateConfig := fun _ _ => none
  Now := fun k => 1700000000 + k

end Cluster

namespace Catalog

/-- The argument of `response.HTTPResponse` in `CatalogController.List`; `Data` holds
the catalogs and the total count that `view.ListCatalogsResponse` wraps. -/
structure ListResponseOptions where
  SuccMsg : String
  Err : Option Error
  Data : Option (List String × Int)
deriving DecidableEq, Repr

/-- Observable effects of `CatalogController.List`, in program order. -/
inductive ListEvent
  | list (listOptions : ListOptions)
  | httpResponse (opts : ListResponseOptions)
deriving DecidableEq, Repr

/-- Two more collaborators of `CatalogController.List` that are not among the sources:
`GetQueryOptionsFromCtx` on the raw query of the request with the supported
parameters (its second result is not used), and `dto.ListOptions.GetFilterFromField`. -/
structure QueryEnv where
  GetQueryOptionsFromCtx : String → List String → Except Error ListOptions
  GetFilterFromField : ListOptions → String → Filter

/-- The function `setDeprecatedFalseIfUnset` (catalog.go 241-248): the list options
after the call. -/
def setDeprecatedFalseIfUnset (env : Env) (q : QueryEnv) (listOptions : ListOptions) :
    ListOptions :=
  if (q.GetFilterFromField listOptions "deprecated").Field ≠ "" then listOptions
  else env.AddEqualToFiltersFromMap listOptions [("deprecated", ["false"])] ["deprecated"]

/-- The handler `CatalogController.List` (catalog.go 100-115) on the raw query of the
request: the trace of effects. The log text of a query error is not modelled. -/
def CatalogController.List (env : Env) (q : QueryEnv) (query : String) : List ListEvent :=
  let errMsg := "Failed to get catalogs"
  let succMsg := "Catalogs fetched successfully"
  let supportedQueryParams := ["model_name", "deprecated", "source_hub"]
  match q.GetQueryOptionsFromCtx query supportedQueryParams with
  | .error err =>
    [.httpResponse ⟨"", some ⟨err.Type_, err.InternalErr, errMsg ++ ": " ++ err.Msg⟩, none⟩]
  | .ok listOptions =>
    let listOptions := setDeprecatedFalseIfUnset env q listOptions
    let out := env.List listOptions
    [.list listOptions, .httpResponse ⟨succMsg, out.2.2, some (out.1, out.2.1)⟩]

/-- The `catalogService.List` calls of a trace of `CatalogController.List`. -/
def listCalls (tr : List ListEvent) : List ListOptions :=
  tr.filterMap (fun e => match e with
    | .list lo => some lo
    | _ => none)

/-- Query collaborators for the examples: the query text "deprecated=true" parses to
one equal-to filter, any other query to no filter; a filter is looked up by its field,
the zero filter standing for "not found". -/
def demoQueryEnv : QueryEnv where
  GetQueryOptionsFromCtx := fun query _ =>
    if query = "deprecated=true" then .ok ⟨[⟨"deprecated", "eq", ["true"]⟩]⟩ else .ok ⟨[]⟩
  GetFilterFromField := fun lo field =>
    match lo.Filters.find? (fun f => f.Field == field) with
    | some f => f
    | none => ⟨"", "", []⟩

end Catalog

namespace Endpoint

/-- The type `strconv.NumError` of the Go standard library; `Err` is the message of the
wrapped error. -/
structure NumError where
  Func : String
  Num : String
  Err : String
deriving DecidableEq, Repr

/-- The function `strconv.ParseBool` of the Go standard library: the twelve accepted
spellings, and a syntax error for every other string. -/
def ParseBool (str : String) : Except NumError Bool :=
  if str ∈ ["1", "t", "T", "true", "TRUE", "True"] then .ok true
  else if str ∈ ["0", "f", "F", "false", "FALSE", "False"] then .ok false
  else .error ⟨"ParseBool", str, "invalid syntax"⟩

/-- The error kinds of `common/errors` that occur in `Delete` and `ValidateEndpoint`. -/
inductive ErrorType
  | ParsingError
  | ValidationError
  | DBError
deriving DecidableEq, Repr

/-- The `InternalErr` of an `e.Error`: the parse error, or an
`e.FieldValidationErrorList`. -/
inductive InternalError
  | numError (err : NumError)
  | fieldErrors (Errors : List Catalog.FieldValidationError)
deriving DecidableEq, Repr

/-- The `e.Error` value; `Type_` is its `Type` field. -/
structure Error where
  Type_ : ErrorType
  InternalErr : Option InternalError
  Msg : String
  Log : String
deriving DecidableEq, Repr

/-- The argument of `response.HTTPResponse` in `Delete` and `ValidateEndpoint`. -/
structure HTTPResponseOptions where
  SuccMsg : String
  Err : Option Error
deriving DecidableEq, Repr

/-- Observable effects of the two endpoint handlers, in program order. -/
inductive Event
  | delete (userContext : APIKey.UserContext) (endpointID : String) (forceDelete : Bool)
  | validateEndpointName (endpointName : String)
  | httpResponse (opts : HTTPResponseOptions)
deriving DecidableEq, Repr

/-- The collaborators of the two handlers, none of which is among the sources: the
constant `constants.KserveISVCNameLength` (a Go `int`) and the two methods of the
endpoint service, each with the error it returns (`none` is nil). -/
structure Env where
  KserveISVCNameLength : Int
  Delete : APIKey.UserContext → String → Bool → Option Error
  ValidateEndpointName : String → Option Error

/-- The `endpointService.Delete` calls of a trace, with their force flag. -/
def deletes (tr : List Event) : List (APIKey.UserContext × String × Bool) :=
  tr.filterMap (fun e => match e with
    | .delete u id force => some (u, id, force)
    | _ => none)

/-- The `endpointService.ValidateEndpointName` calls of a trace. -/
def validations (tr : List Event) : List String :=
  tr.filterMap (fun e => match e with
    | .validateEndpointName n => some n
    | _ => none)

/-- The handler `EndpointController.Delete` (endpoint.go 132-145), for the path
parameter `endpoint_id`, the user context that `getUserContext(c)` returns and the
value of the query parameter "force" (`none` when the query has no such parameter, so
that `c.DefaultQuery("force", "false")` gives "false"): the trace of effects. -/
def Delete (env : Env) (userContext : APIKey.UserContext) (endpointID : String)
    (force : Option String) : List Event :=
  let succMsg := "Endpoint delete triggered successfully"
  let errMsg := "Failed to delete endpoint"
  match ParseBool (force.getD "false") with
  | .error parseErr =>
    [.httpResponse ⟨"", some ⟨.ParsingError, some (.numError parseErr), errMsg, ""⟩⟩]
  | .ok forceDelete =>
    let err := env.Delete userContext endpointID forceDelete
    [.delete userContext endpointID forceDelete, .httpResponse ⟨succMsg, err⟩]

/-- The handler `EndpointController.ValidateEndpoint` (endpoint.go 257-271), for the
value of the query parameter "endpoint_name": the trace of effects. `len` counts the
bytes of the name. -/
def ValidateEndpoint (env : Env) (endpointName : String) : List Event :=
  let succMsg := "Endpoint name validated successfully"
  let errMsg := "Invalid endpoint name"
  if (endpointName.utf8ByteSize : Int) > env.KserveISVCNameLength then
    let logMsg := "Length of name should be less than " ++ toString env.KserveISVCNameLength
      ++ " for the name " ++ endpointName
    [.httpResponse ⟨succMsg,
      some ⟨.ValidationError, some (.fieldErrors [⟨"name", logMsg⟩]), errMsg, logMsg⟩⟩]
  else
    let err := env.ValidateEndpointName endpointName
    [.validateEndpointName endpointName, .httpResponse ⟨succMsg, err⟩]

/-- Collaborators for the examples: names of up to 45 bytes are allowed, deletion
succeeds, and the service rejects names that start with a digit. -/
def endpointEnv : Env where
  KserveISVCNameLength := 45
  Delete := fun _ _ _ => none
  ValidateEndpointName := fun name =>
    match name.data.head? with
    | some c => if c.isDigit then some ⟨.ValidationError, none, "invalid endpoint name", ""⟩
                else none
    | none => none

end Endpoint

namespace Routes

/-- The access levels of the authentication middleware that the two route tables use
(`auth.AllowAll`, `auth.AllowAdmin`, `auth.AllowSuperAdmin`). -/
inductive AccessLevel
  | AllowAll
  | AllowAdmin
  | AllowSuperAdmin
deriving DecidableEq, Repr

/-- One registered route: the HTTP method, the path under the v1 router group, the
access level handed to `ValidateAccessToken` for the route, and the handler. -/
structure Route where
  Method : String
  Path : String
  Access : AccessLevel
  Handler : String
deriving DecidableEq, Repr

/-- A registration `route.METHOD(relativePath, ValidateAccessToken(access), handler)`
on the router group with prefix `group`. -/
def register (group method relativePath : String) (access : AccessLevel)
    (handler : String) : Route :=
  ⟨method, group ++ relativePath, access, handler⟩

/-- The method `CatalogController.route` (catalog.go 35-43): the routes it registers,
in order; the PATCH route is commented out in the source. -/
def CatalogController.route : List Route :=
  let route := "/catalogs"
  [register route "GET" "/:catalog_id" .AllowAll "GetByID",
   register route "POST" "" .AllowSuperAdmin "Create",
   register route "GET" "" .AllowAll "List",
   register route "DELETE" "/:catalog_id" .AllowSuperAdmin "Delete",
   register route "POST" "/requirements" .AllowAll "GetRequirements"]

/-- The method `ClusterController.route` (cluster.go 39-49): the routes it registers,
in order. -/
def ClusterController.route : List Route :=
  let route := "/cluster"
  [register route "GET" "/info" .AllowAll "GetClusterInfo",
   register route "GET" "/config" .AllowAll "GetClusterConfig",
   register route "PATCH" "/config" .AllowSuperAdmin "UpdateClusterConfig",
   register route "GET" "/health" .AllowAdmin "GetClusterHealth"]

/-- The access levels with which a method and path are registered in a route table. -/
def accessOf (routes : List Route) (method path : String) : List AccessLevel :=
  (routes.filter (fun r => r.Method == method && r.Path == path)).map (fun r => r.Access)

end Routes

namespace Client

/-! ## Lemmas on the retry loop -/

theorem attempts_append (a b : List Event) : attempts (a ++ b) = attempts a + attempts b := by
  simp [attempts]

theorem sleeps_append (a b : List Event) : sleeps (a ++ b) = sleeps a + sleeps b := by
  simp [sleeps]

theorem builds_append (a b : List Event) : builds (a ++ b) = builds a + builds b := by
  simp [builds]

theorem attempts_replicate_roundTrip (k : Nat) (r : Request) :
    attempts (List.replicate k (.roundTrip r)) = k := by
  induction k with
  | zero => rfl
  | succ k ih =>
    rw [List.replicate_succ]
    have h := attempts_append [Event.roundTrip r] (List.replicate k (.roundTrip r))
    simp only [List.singleton_append] at h
    rw [h, ih]
    simp [attempts, Event.isRoundTrip]
    omega

theorem Do_result (net : Net) (tr : List Event) (headers : List (String × String))
    (req0 : Request) :
    (Do net tr (sentRequest headers req0)).1 = attemptResult net headers req0 (attempts tr) := by
  unfold attemptResult Do
  rw [attempts_replicate_roundTrip]
  cases net.RoundTrip (attempts tr) (sentRequest headers req0) with
  | error e => rfl
  | ok resp =>
    rcases resp with ⟨status, body⟩
    cases body <;> rfl

theorem Do_attempts (net : Net) (tr : List Event) (req : Request) :
    attempts (Do net tr req).2 = attempts tr + 1 := by
  unfold Do
  cases net.RoundTrip (attempts tr) req with
  | error e => simp [attempts, Event.isRoundTrip]
  | ok resp =>
    rcases resp with ⟨status, body⟩
    cases body <;> simp [attempts, Event.isRoundTrip]

theorem Do_sleeps (net : Net) (tr : List Event) (req : Request) :
    sleeps (Do net tr req).2 = sleeps tr := by
  unfold Do
  cases net.RoundTrip (attempts tr) req with
  | error e => simp [sleeps, Event.isSleep]
  | ok resp =>
    rcases resp with ⟨status, body⟩
    cases body <;> simp [sleeps, Event.isSleep]

theorem Do_builds (net : Net) (tr : List Event) (req : Request) :
    builds (Do net tr req).2 = builds tr := by
  unfold Do
  cases net.RoundTrip (attempts tr) req with
  | error e => simp [builds, Event.isNewRequest]
  | ok resp =>
    rcases resp with ⟨status, body⟩
    cases body <;> simp [builds, Event.isNewRequest]

theorem leave_result (resp : Option Response) (defers : Nat) (result : Option String)
    (tr : List Event) : (leave resp defers result tr).1 = result := by
  cases resp <;> rfl

theorem leave_attempts (resp : Option Response) (defers : Nat) (result : Option String)
    (tr : List Event) : attempts (leave resp defers result tr).2 = attempts tr := by
  cases resp with
  | none => rfl
  | some r =>
    simp only [leave, attempts_append]
    simp [attempts, List.countP_replicate, Event.isRoundTrip]

theorem leave_sleeps (resp : Option Response) (defers : Nat) (result : Option String)
    (tr : List Event) : sleeps (leave resp defers result tr).2 = sleeps tr := by
  cases resp with
  | none => rfl
  | some r =>
    simp only [leave, sleeps_append]
    simp [sleeps, List.countP_replicate, Event.isSleep]

theorem leave_builds (resp : Option Response) (defers : Nat) (result : Option String)
    (tr : List Event) : builds (leave resp defers result tr).2 = builds tr := by
  cases resp with
  | none => rfl
  | some r =>
    simp only [leave, builds_append]
    simp [builds, List.countP_replicate, Event.isNewRequest]

/-- The code's success test says what the words say: no error, a response, status 200. -/
theorem attemptOK_iff (r : DoResult) :
    attemptOK r = true ↔
      r.err = none ∧ ∃ resp, r.resp = some resp ∧ resp.StatusCode = 200 := by
  rcases r with ⟨resp, body, err⟩
  cases err <;> cases resp <;> simp [attemptOK]

/-- Failed attempts in a row: when the next `m` attempts all fail the success test and
the bound leaves room for them, the loop goes through `m` iterations, each with one
request built, one transport call and one sleep. -/
theorem retryLoop_failed_run (net : Net) (url method : String)
    (headers : List (String × String)) (n d : Int) (req0 : Request)
    (hreq : net.NewRequest method url = .ok req0) :
    ∀ (m fuel : Nat) (i : Int) (resp : Option Response) (defers : Nat) (tr : List Event),
      i + m ≤ n →
      (∀ j, j < m → attemptOK (attemptResult net headers req0 (attempts tr + j)) = false) →
      ∃ resp2 tr2,
        retryLoop net url method headers n d (fuel + m) i resp defers tr
          = retryLoop net url method headers n d fuel (i + m) resp2 (defers + m) tr2
        ∧ attempts tr2 = attempts tr + m ∧ sleeps tr2 = sleeps tr + m
        ∧ builds tr2 = builds tr + m := by
  intro m
  induction m with
  | zero =>
    intro fuel i resp defers tr _ _
    exact ⟨resp, tr, by simp, by simp, by simp, by simp⟩
  | succ m ih =>
    intro fuel i resp defers tr hle hfail
    have hi : i < n := by push_cast at hle; omega
    have h0 := hfail 0 (Nat.succ_pos m)
    rw [Nat.add_zero] at h0
    have hA : attempts (tr ++ [Event.newRequest method url]) = attempts tr := by
      simp [attempts, Event.isRoundTrip]
    have hdo : attemptOK (Do net (tr ++ [Event.newRequest method url])
        (sentRequest headers req0)).1 = false := by
      rw [Do_result, hA]; exact h0
    obtain ⟨resp2, tr2, heq, ha, hs, hb⟩ := ih fuel (i + 1)
      (Do net (tr ++ [Event.newRequest method url]) (sentRequest headers req0)).1.resp
      (defers + 1)
      ((Do net (tr ++ [Event.newRequest method url]) (sentRequest headers req0)).2 ++ [.sleep d])
      (by push_cast at hle ⊢; omega)
      (by
        intro j hj
        have := hfail (j + 1) (by omega)
        rw [attempts_append, Do_attempts, hA]
        simpa [attempts, Event.isRoundTrip, Nat.add_assoc, Nat.add_comm 1 j] using this)
    refine ⟨resp2, tr2, ?_, ?_, ?_, ?_⟩
    · have hf : fuel + (m + 1) = (fuel + m) + 1 := by omega
      rw [hf]
      conv_lhs => unfold retryLoop
      simp only [hi, if_true, hreq]
      change (if attemptOK (Do net (tr ++ [Event.newRequest method url])
        (sentRequest headers req0)).1 = true then _ else _) = _
      rw [hdo]
      simp only [Bool.false_eq_true, if_false]
      rw [heq]
      congr 1
      · push_cast; ring
      · omega
    · rw [ha, attempts_append, Do_attempts, hA]
      simp [attempts, Event.isRoundTrip]; omega
    · rw [hs, sleeps_append, Do_sleeps, sleeps_append]
      simp [sleeps, Event.isSleep]; omega
    · rw [hb, builds_append, Do_builds, builds_append]
      simp [builds, Event.isNewRequest]; omega

theorem attemptOK_eq_false_iff (r : DoResult) :
    attemptOK r = false ↔
      (r.err ≠ none ∨ ∀ resp, r.resp = some resp → resp.StatusCode ≠ 200) := by
  rcases r with ⟨resp, body, err⟩
  cases err <;> cases resp <;> simp [attemptOK]

theorem leave_eq (resp : Option Response) (defers : Nat) (result : Option String)
    (tr : List Event) :
    leave resp defers result tr = (result, (leave resp defers result tr).2) := by
  cases resp <;> rfl

/-- An iteration whose attempt passes the success test returns nil at once. -/
theorem retryLoop_success_step (net : Net) (url method : String)
    (headers : List (String × String)) (n d : Int) (req0 : Request)
    (hreq : net.NewRequest method url = .ok req0)
    (fuel : Nat) (i : Int) (resp : Option Response) (defers : Nat) (tr : List Event)
    (hi : i < n)
    (hok : attemptOK (attemptResult net headers req0 (attempts tr)) = true) :
    ∃ tr2, retryLoop net url method headers n d (fuel + 1) i resp defers tr = some (none, tr2)
      ∧ attempts tr2 = attempts tr + 1 ∧ sleeps tr2 = sleeps tr
      ∧ builds tr2 = builds tr + 1 := by
  have hA : attempts (tr ++ [Event.newRequest method url]) = attempts tr := by
    simp [attempts, Event.isRoundTrip]
  have hdo : attemptOK (Do net (tr ++ [Event.newRequest method url])
      (sentRequest headers req0)).1 = true := by
    rw [Do_result, hA]; exact hok
  refine ⟨(leave (Do net (tr ++ [Event.newRequest method url])
      (sentRequest headers req0)).1.resp defers none
      (Do net (tr ++ [Event.newRequest method url]) (sentRequest headers req0)).2).2, ?_, ?_, ?_, ?_⟩
  · conv_lhs => unfold retryLoop
    simp only [hi, if_true, hreq, hdo]
    rw [leave_eq]
  · rw [leave_attempts, Do_attempts, hA]
  · rw [leave_sleeps, Do_sleeps, sleeps_append]
    simp [sleeps, Event.isSleep]
  · rw [leave_builds, Do_builds, builds_append]
    simp [builds, Event.isNewRequest]

/-- Once the counter has reached the bound the loop is over, whatever fuel is left. -/
theorem retryLoop_exhausted (net : Net) (url method : String)
    (headers : List (String × String)) (n d : Int)
    (fuel : Nat) (i : Int) (resp : Option Response) (defers : Nat) (tr : List Event)
    (hi : ¬ i < n) :
    retryLoop net url method headers n d fuel i resp defers tr
      = some (leave resp defers (some "failed to make request after multiple retries") tr) := by
  cases fuel with
  | zero => unfold retryLoop; simp only [hi, if_false]
  | succ f => unfold retryLoop; simp only [hi, if_false]

/-- With the fuel `MakeRequestWithRetry` provides the loop always returns, and every
result it returns has at least the attempts made so far (strictly more when it is nil,
and when an iteration is still due and the request can be built). -/
theorem retryLoop_total (net : Net) (url method : String)
    (headers : List (String × String)) (n d : Int) :
    ∀ (fuel : Nat) (i : Int) (resp : Option Response) (defers : Nat) (tr : List Event),
      n - i ≤ fuel →
      ∃ out, retryLoop net url method headers n d fuel i resp defers tr = some out
        ∧ attempts tr ≤ attempts out.2
        ∧ (out.1 = none → attempts tr < attempts out.2)
        ∧ (∀ req0, net.NewRequest method url = .ok req0 → i < n →
            attempts tr + 1 ≤ attempts out.2) := by
  intro fuel
  induction fuel with
  | zero =>
    intro i resp defers tr hle
    have hi : ¬ i < n := by push_cast at hle; omega
    refine ⟨_, retryLoop_exhausted net url method headers n d 0 i resp defers tr hi, ?_, ?_, ?_⟩
    · rw [leave_attempts]
    · rw [leave_result]; intro h; cases h
    · intro _ _ h; exact absurd h hi
  | succ f ih =>
    intro i resp defers tr hle
    by_cases hi : i < n
    · have hA : attempts (tr ++ [Event.newRequest method url]) = attempts tr := by
        simp [attempts, Event.isRoundTrip]
      cases hreq : net.NewRequest method url with
      | error err =>
        refine ⟨leave resp defers (some err) (tr ++ [.newRequest method url]), ?_, ?_, ?_, ?_⟩
        · conv_lhs => unfold retryLoop
          simp only [hi, if_true, hreq]
        · rw [leave_attempts, hA]
        · rw [leave_result]; intro h; cases h
        · intro req0 h; cases h
      | ok req0 =>
        by_cases hok : attemptOK (attemptResult net headers req0 (attempts tr)) = true
        · obtain ⟨tr2, h1, h2, _, _⟩ := retryLoop_success_step net url method headers n d req0
            hreq f i resp defers tr hi hok
          refine ⟨(none, tr2), h1, ?_, ?_, ?_⟩
          · simp only; omega
          · intro _; simp only; omega
          · intro _ _ _; simp only; omega
        · have hno : attemptOK (attemptResult net headers req0 (attempts tr)) = false := by
            simpa using hok
          obtain ⟨resp2, tr2, heq, ha, _, _⟩ := retryLoop_failed_run net url method headers n d
            req0 hreq 1 f i resp defers tr (by push_cast; omega)
            (by intro j hj; have : j = 0 := by omega
                subst this; simpa using hno)
          obtain ⟨out, ho, hge, hnil, _⟩ := ih (i + 1) resp2 (defers + 1) tr2
            (by push_cast at hle ⊢; omega)
          refine ⟨out, ?_, ?_, ?_, ?_⟩
          · rw [heq]; exact ho
          · omega
          · intro h; have := hnil h; omega
          · intro _ _ _; omega
    · refine ⟨_, retryLoop_exhausted net url method headers n d (f + 1) i resp defers tr hi,
        ?_, ?_, ?_⟩
      · rw [leave_attempts]
      · rw [leave_result]; intro h; cases h
      · intro _ _ h; exact absurd h hi

/-- When the first `k` attempts all fail the success test and `k` does not exceed the
bound, `MakeRequestWithRetry` reaches iteration `k` after exactly `k` requests built,
`k` transport calls and `k` sleeps. -/
theorem retry_reaches (net : Net) (url method : String)
    (headers : List (String × String)) (n d : Int) (req0 : Request)
    (hreq : net.NewRequest method url = .ok req0) (k : Nat) (hkn : (k : Int) ≤ n)
    (hfail : ∀ j, j < k → attemptOK (attemptResult net headers req0 j) = false) :
    ∃ resp2 tr2,
      MakeRequestWithRetry net url method headers n d
        = retryLoop net url method headers n d (n.toNat - k) k resp2 k tr2
      ∧ attempts tr2 = k ∧ sleeps tr2 = k ∧ builds tr2 = k := by
  obtain ⟨resp2, tr2, heq, ha, hs, hb⟩ := retryLoop_failed_run net url method headers n d
    req0 hreq k (n.toNat - k) 0 none 0 [] (by omega)
    (by intro j hj; simpa [attempts] using hfail j hj)
  refine ⟨resp2, tr2, ?_, ?_, ?_, ?_⟩
  · unfold MakeRequestWithRetry
    have hf : n.toNat = n.toNat - k + k := by omega
    conv_lhs => rw [hf]
    rw [heq]
    congr 1 <;> simp
  · simpa [attempts] using ha
  · simpa [sleeps] using hs
  · simpa [builds] using hb

/-! ## Claims on `MakeRequestWithRetry` -/

/-- C1: for a bound n and an attempt number k with 1 <= k <= n, when the request can be
built, the first k-1 attempts fail (`Do` returns an error or a status other than 200) and
attempt k returns status 200 with no error, `MakeRequestWithRetry` returns nil after
exactly k transport calls. -/
theorem MakeRequestWithRetry_succeeds_at_attempt (net : Net) (url method : String)
    (headers : List (String × String)) (n d : Int) (req0 : Request) (k : Nat)
    (hk : 1 ≤ k) (hkn : (k : Int) ≤ n)
    (hreq : net.NewRequest method url = .ok req0)
    (hfail : ∀ j, j + 1 < k →
      ((attemptResult net headers req0 j).err ≠ none ∨
        ∀ resp, (attemptResult net headers req0 j).resp = some resp → resp.StatusCode ≠ 200))
    (hok : (attemptResult net headers req0 (k - 1)).err = none ∧
      ∃ resp, (attemptResult net headers req0 (k - 1)).resp = some resp ∧
        resp.StatusCode = 200) :
    ∃ tr, MakeRequestWithRetry net url method headers n d = some (none, tr)
      ∧ attempts tr = k := by
  obtain ⟨resp2, tr2, heq, ha, _, _⟩ := retry_reaches net url method headers n d req0 hreq
    (k - 1) (by omega)
    (by intro j hj
        exact (attemptOK_eq_false_iff _).2 (hfail j (by omega)))
  have hfuel : n.toNat - (k - 1) = (n.toNat - k) + 1 := by omega
  rw [hfuel] at heq
  obtain ⟨tr3, h3, ha3, _, _⟩ := retryLoop_success_step net url method headers n d req0 hreq
    (n.toNat - k) ((k - 1 : Nat) : Int) resp2 (k - 1) tr2 (by omega)
    (by rw [ha]; exact (attemptOK_iff _).2 hok)
  exact ⟨tr3, by rw [heq, h3], by omega⟩

/-- C1, instance: bound 3, a server failing twice and then answering 200: three attempts. -/
theorem MakeRequestWithRetry_succeeds_at_attempt_witness :
    ∃ tr, MakeRequestWithRetry (flakyNet 2) "http://srv" "POST"
        [("Content-Type", "application/json")] 3 1 = some (none, tr)
      ∧ attempts tr = 3 :=
  MakeRequestWithRetry_succeeds_at_attempt (flakyNet 2) "http://srv" "POST"
    [("Content-Type", "application/json")] 3 1 ⟨"POST", "http://srv", []⟩ 3
    (by decide) (by decide) rfl
    (by
      intro j hj
      right
      intro resp h
      have hj2 : j = 0 ∨ j = 1 := by omega
      have h2 : (attemptResult (flakyNet 2) [("Content-Type", "application/json")]
          ⟨"POST", "http://srv", []⟩ j).resp = some ⟨500, .ok "server error"⟩ := by
        rcases hj2 with rfl | rfl <;> rfl
      rw [h2] at h
      cases h
      decide)
    ⟨rfl, ⟨200, .ok ""⟩, rfl, rfl⟩

/-- C2: for a bound n >= 1, when the request can be built and every one of the n
attempts fails (`Do` returns an error or a status other than 200, in any mix),
`MakeRequestWithRetry` makes exactly n transport calls and returns the error
"failed to make request after multiple retries". -/
theorem MakeRequestWithRetry_exhausted (net : Net) (url method : String)
    (headers : List (String × String)) (n d : Int) (req0 : Request)
    (hn : 1 ≤ n)
    (hreq : net.NewRequest method url = .ok req0)
    (hfail : ∀ j : Nat, (j : Int) < n →
      ((attemptResult net headers req0 j).err ≠ none ∨
        ∀ resp, (attemptResult net headers req0 j).resp = some resp → resp.StatusCode ≠ 200)) :
    ∃ tr, MakeRequestWithRetry net url method headers n d
        = some (some "failed to make request after multiple retries", tr)
      ∧ (attempts tr : Int) = n := by
  obtain ⟨resp2, tr2, heq, ha, _, _⟩ := retry_reaches net url method headers n d req0 hreq
    n.toNat (by omega)
    (by intro j hj
        exact (attemptOK_eq_false_iff _).2 (hfail j (by omega)))
  rw [retryLoop_exhausted net url method headers n d _ _ resp2 _ tr2 (by omega), leave_eq] at heq
  exact ⟨_, heq, by rw [leave_attempts, ha]; omega⟩

/-- C2, instance: bound 3 against a server that always answers 500. -/
theorem MakeRequestWithRetry_exhausted_witness :
    ∃ tr, MakeRequestWithRetry (statusNet 500) "http://srv" "POST" [] 3 1
        = some (some "failed to make request after multiple retries", tr)
      ∧ (attempts tr : Int) = 3 :=
  MakeRequestWithRetry_exhausted (statusNet 500) "http://srv" "POST" [] 3 1
    ⟨"POST", "http://srv", []⟩ (by decide) rfl
    (by
      intro j _
      right
      intro resp h
      have h2 : (attemptResult (statusNet 500) [] ⟨"POST", "http://srv", []⟩ j).resp
          = some ⟨500, .ok ""⟩ := by
        unfold attemptResult Do statusNet
        rfl
      rw [h2] at h
      cases h
      decide)

/-- For a bound n >= 1 with every attempt failing, the loop sleeps once after each of
the n attempts: n sleeps, the last of them after the final attempt. -/
theorem retry_all_failed_sleeps (net : Net) (url method : String)
    (headers : List (String × String)) (n d : Int) (req0 : Request)
    (hn : 1 ≤ n)
    (hreq : net.NewRequest method url = .ok req0)
    (hfail : ∀ j : Nat, (j : Int) < n →
      attemptOK (attemptResult net headers req0 j) = false) :
    ∃ r tr, MakeRequestWithRetry net url method headers n d = some (r, tr)
      ∧ (sleeps tr : Int) = n ∧ (attempts tr : Int) = n := by
  obtain ⟨resp2, tr2, heq, ha, hs, _⟩ := retry_reaches net url method headers n d req0 hreq
    n.toNat (by omega) (by intro j hj; exact hfail j (by omega))
  rw [retryLoop_exhausted net url method headers n d _ _ resp2 _ tr2 (by omega), leave_eq] at heq
  exact ⟨_, _, heq, by rw [leave_sleeps, hs]; omega, by rw [leave_attempts, ha]; omega⟩

/-- C3: with bound 1 against a server that always answers 500, the single attempt is
followed by a sleep of the retry delay before the call returns: one sleep, where the
claim allows none. -/
theorem MakeRequestWithRetry_sleeps_after_final_attempt :
    MakeRequestWithRetry (statusNet 500) "http://srv" "GET" [] 1 7
      = some (some "failed to make request after multiple retries",
          [.newRequest "GET" "http://srv", .roundTrip ⟨"GET", "http://srv", []⟩,
           .readBody, .closeBody, .sleep 7, .deferredClose]) := by
  decide

/-- C4: for a bound n >= 1, when building the request fails with an error,
`MakeRequestWithRetry` returns that error from the first iteration: the only effect is
the one failed `http.NewRequest` call, with no transport call and no sleep. -/
theorem MakeRequestWithRetry_construction_error (net : Net) (url method : String)
    (headers : List (String × String)) (n d : Int) (err : String)
    (hn : 1 ≤ n)
    (hreq : net.NewRequest method url = .error err) :
    MakeRequestWithRetry net url method headers n d
      = some (some err, [.newRequest method url])
    ∧ attempts [Event.newRequest method url] = 0
    ∧ sleeps [Event.newRequest method url] = 0 := by
  refine ⟨?_, rfl, rfl⟩
  unfold MakeRequestWithRetry
  have hf : n.toNat = (n.toNat - 1) + 1 := by omega
  rw [hf]
  unfold retryLoop
  have h0 : (0 : Int) < n := by omega
  simp only [h0, if_true, hreq]
  rfl

/-- C4, instance: the malformed URL ":" with bound 3. -/
theorem MakeRequestWithRetry_construction_error_witness :
    MakeRequestWithRetry (flakyNet 0) ":" "POST" [] 3 1
      = some (some "parse \":\": missing protocol scheme", [.newRequest "POST" ":"])
    ∧ attempts [Event.newRequest "POST" ":"] = 0
    ∧ sleeps [Event.newRequest "POST" ":"] = 0 :=
  MakeRequestWithRetry_construction_error (flakyNet 0) ":" "POST" [] 3 1
    "parse \":\": missing protocol scheme" (by decide) rfl

/-- C5: in a call whose request can be built and whose attempts before attempt k (k
below the bound, counted from 0) were not successful, attempt k ends the call with nil
exactly when `Do` returned no error and a response with status 200. Any other outcome
is a failed attempt: the call does not return at it with nil, and when another attempt
remains under the bound that attempt is made. A response with status 201 or 204
and no error fails the test like any other status. -/
theorem MakeRequestWithRetry_success_test (net : Net) (url method : String)
    (headers : List (String × String)) (n d : Int) (req0 : Request) (k : Nat)
    (hkn : (k : Int) < n)
    (hreq : net.NewRequest method url = .ok req0)
    (hearlier : ∀ j, j < k →
      ¬ ((attemptResult net headers req0 j).err = none ∧
          ∃ resp, (attemptResult net headers req0 j).resp = some resp ∧
            resp.StatusCode = 200)) :
    (((attemptResult net headers req0 k).err = none ∧
        ∃ resp, (attemptResult net headers req0 k).resp = some resp ∧
          resp.StatusCode = 200) →
      ∃ tr, MakeRequestWithRetry net url method headers n d = some (none, tr)
        ∧ attempts tr = k + 1)
    ∧ (¬ ((attemptResult net headers req0 k).err = none ∧
        ∃ resp, (attemptResult net headers req0 k).resp = some resp ∧
          resp.StatusCode = 200) →
      ∃ r tr, MakeRequestWithRetry net url method headers n d = some (r, tr)
        ∧ k + 1 ≤ attempts tr
        ∧ ((k : Int) + 1 < n → k + 2 ≤ attempts tr)
        ∧ (r = none → k + 2 ≤ attempts tr))
    ∧ (∀ (r : DoResult) (resp : Response), r.err = none → r.resp = some resp →
        (resp.StatusCode = 201 ∨ resp.StatusCode = 204) → attemptOK r = false) := by
  have hno : ∀ j, ¬ ((attemptResult net headers req0 j).err = none ∧
      ∃ resp, (attemptResult net headers req0 j).resp = some resp ∧ resp.StatusCode = 200) →
      attemptOK (attemptResult net headers req0 j) = false := by
    intro j h
    cases hb : attemptOK (attemptResult net headers req0 j) with
    | false => rfl
    | true => exact absurd ((attemptOK_iff _).1 hb) h
  refine ⟨?_, ?_, ?_⟩
  · intro hok
    obtain ⟨resp2, tr2, heq, ha, _, _⟩ := retry_reaches net url method headers n d req0 hreq
      k (by omega) (fun j hj => hno j (hearlier j hj))
    have hfuel : n.toNat - k = (n.toNat - (k + 1)) + 1 := by omega
    rw [hfuel] at heq
    obtain ⟨tr3, h3, ha3, _, _⟩ := retryLoop_success_step net url method headers n d req0
      hreq (n.toNat - (k + 1)) (k : Int) resp2 k tr2 hkn
      (by rw [ha]; exact (attemptOK_iff _).2 hok)
    exact ⟨tr3, by rw [heq, h3], by omega⟩
  · intro hbad
    obtain ⟨resp2, tr2, heq, ha, _, _⟩ := retry_reaches net url method headers n d req0 hreq
      (k + 1) (by push_cast; omega)
      (by
        intro j hj
        by_cases hjk : j < k
        · exact hno j (hearlier j hjk)
        · have : j = k := by omega
          subst this; exact hno j hbad)
    obtain ⟨out, ho, hge, hnil, hmore⟩ := retryLoop_total net url method headers n d
      (n.toNat - (k + 1)) ((k + 1 : Nat) : Int) resp2 (k + 1) tr2 (by push_cast; omega)
    refine ⟨out.1, out.2, by rw [heq, ho], by omega, ?_, ?_⟩
    · intro h
      have := hmore req0 hreq (by push_cast; omega)
      omega
    · intro h
      have := hnil h
      omega
  · intro r resp herr hresp hst
    apply (attemptOK_eq_false_iff r).2
    right
    intro resp2 h2
    rw [hresp] at h2
    cases h2
    rcases hst with h | h <;> rw [h] <;> decide

/-- C5, instance: bound 2 against a server that answers 201 to every call: the first
attempt does not end the call, and a second attempt is made. -/
theorem MakeRequestWithRetry_success_test_witness :
    ∃ r tr, MakeRequestWithRetry (statusNet 201) "http://srv" "POST" [] 2 1 = some (r, tr)
      ∧ 0 + 1 ≤ attempts tr
      ∧ (((0 : Nat) : Int) + 1 < 2 → 0 + 2 ≤ attempts tr)
      ∧ (r = none → 0 + 2 ≤ attempts tr) :=
  (MakeRequestWithRetry_success_test (statusNet 201) "http://srv" "POST" [] 2 1
    ⟨"POST", "http://srv", []⟩ 0 (by decide) rfl
    (by intro j hj; omega)).2.1
    (by
      rintro ⟨_, resp, h, hst⟩
      have h2 : (attemptResult (statusNet 201) [] ⟨"POST", "http://srv", []⟩ 0).resp
          = some ⟨201, .ok ""⟩ := rfl
      rw [h2] at h
      cases h
      revert hst
      decide)

end Client

namespace Inference

/-! ## Lemmas on the relay -/

theorem writes_append (a b : List Event) : writes (a ++ b) = writes a ++ writes b := by
  simp [writes, List.filterMap_append]

theorem metrics_append (a b : List Event) : metrics (a ++ b) = metrics a ++ metrics b := by
  simp [metrics, List.filterMap_append]

theorem recvs_append (a b : List Event) : recvs (a ++ b) = recvs a + recvs b := by
  simp [recvs]

theorem uuids_append (a b : List Event) : uuids (a ++ b) = uuids a + uuids b := by
  simp [uuids]

/-- What `streamResponse` does to a trace: it appends its own writes. -/
theorem streamResponse_append (env : Env) (tr : List Event) (r : Response) :
    streamResponse env tr r = tr ++ streamResponse env [] r := by
  unfold streamResponse
  cases env.marshal r <;> simp

theorem streamResponse_writes (env : Env) (tr : List Event) (r : Response) :
    writes (streamResponse env tr r) = writes tr ++ frame env r := by
  rw [streamResponse_append, writes_append]; rfl

theorem streamResponse_metrics (env : Env) (tr : List Event) (r : Response) :
    metrics (streamResponse env tr r) = metrics tr := by
  unfold streamResponse
  cases env.marshal r <;> simp [metrics, List.filterMap_append]

theorem streamResponse_recvs (env : Env) (tr : List Event) (r : Response) :
    recvs (streamResponse env tr r) = recvs tr := by
  unfold streamResponse
  cases env.marshal r <;> simp [recvs, Event.isRecv]

theorem streamResponse_uuids (env : Env) (tr : List Event) (r : Response) :
    uuids (streamResponse env tr r) = uuids tr := by
  unfold streamResponse
  cases env.marshal r <;> simp [uuids, Event.isUuidNew]

/-- The step on a chunk: one `Recv`, then the frame of the stamped chunk; keep open. -/
theorem relayStep_chunk (env : Env) (stream : Nat → RecvResult) (modelName responseID : String)
    (tr : List Event) (r : Response) (h : stream (recvs tr) = .chunk r) :
    relayStep env stream modelName responseID tr
      = (true, streamResponse env (tr ++ [.recv]) (stamp modelName responseID r)) := by
  unfold relayStep
  rw [h]
  rfl

theorem relayStep_eof (env : Env) (stream : Nat → RecvResult) (modelName responseID : String)
    (tr : List Event) (h : stream (recvs tr) = .eof) :
    relayStep env stream modelName responseID tr
      = (false, tr ++ [.recv, .write "data: [DONE]\n\n",
          .debug ("Stream finished for request on endpoint: " ++ modelName),
          .metric modelName "success"]) := by
  unfold relayStep
  rw [h]

theorem relayStep_err (env : Env) (stream : Nat → RecvResult) (modelName responseID : String)
    (tr : List Event) (e : String) (h : stream (recvs tr) = .err e) :
    relayStep env stream modelName responseID tr
      = (false, tr ++ [.recv,
          .debug ("Stream error for request on endpoint: " ++ modelName ++ "; error " ++ e),
          .metric modelName "failure"]) := by
  unfold relayStep
  rw [h]

/-- Relaying a run of chunks: while the upstream yields the chunks of `chunks` and the
client stays connected, the loop goes through one iteration per chunk, writing the
frame of each stamped chunk in order and recording no metric. -/
theorem Stream_relays_chunks (env : Env) (stream : Nat → RecvResult)
    (modelName responseID : String) :
    ∀ (chunks : List Response) (fuel k : Nat) (tr : List Event),
      (∀ j (h : j < chunks.length), stream (recvs tr + j) = .chunk chunks[j]) →
      (∀ j, j < chunks.length → env.clientGone (k + j) = false) →
      ∃ tr2,
        Stream env.clientGone (relayStep env stream modelName responseID)
            (fuel + chunks.length) k tr
          = Stream env.clientGone (relayStep env stream modelName responseID)
            fuel (k + chunks.length) tr2
        ∧ writes tr2 = writes tr ++ (chunks.map (stamp modelName responseID)).flatMap (frame env)
        ∧ metrics tr2 = metrics tr
        ∧ recvs tr2 = recvs tr + chunks.length
        ∧ uuids tr2 = uuids tr := by
  intro chunks
  induction chunks with
  | nil =>
    intro fuel k tr _ _
    exact ⟨tr, by simp, by simp, rfl, by simp, rfl⟩
  | cons c cs ih =>
    intro fuel k tr hch hcl
    have h0 : stream (recvs tr) = .chunk c := by
      have := hch 0 (by simp)
      simpa using this
    have hg : env.clientGone k = false := by
      have := hcl 0 (by simp)
      simpa using this
    have hstep := relayStep_chunk env stream modelName responseID tr c h0
    have hr1 : recvs (streamResponse env (tr ++ [.recv]) (stamp modelName responseID c)
        ++ [.flush]) = recvs tr + 1 := by
      rw [recvs_append, streamResponse_recvs, recvs_append]
      simp [recvs, Event.isRecv]
    obtain ⟨tr2, heq, hw, hm, hr, hu⟩ := ih fuel (k + 1)
      (streamResponse env (tr ++ [.recv]) (stamp modelName responseID c) ++ [.flush])
      (by
        intro j h
        rw [hr1]
        have := hch (j + 1) (by simp; omega)
        simpa [Nat.add_assoc, Nat.add_comm 1 j] using this)
      (by
        intro j h
        have := hcl (j + 1) (by simp; omega)
        simpa [Nat.add_assoc, Nat.add_comm 1 j] using this)
    refine ⟨tr2, ?_, ?_, ?_, ?_, ?_⟩
    · have hf : fuel + (c :: cs).length = (fuel + cs.length) + 1 := by simp; omega
      rw [hf]
      conv_lhs => unfold Stream
      simp only [hg, hstep, Bool.false_eq_true, if_false, Bool.not_true]
      rw [heq]
      congr 1
      simp; omega
    · rw [hw, writes_append, streamResponse_writes, writes_append]
      simp [writes, List.flatMap_cons]
    · rw [hm, metrics_append, streamResponse_metrics, metrics_append]
      simp [metrics]
    · rw [hr, hr1]; simp; omega
    · rw [hu, uuids_append, streamResponse_uuids, uuids_append]
      simp [uuids, Event.isUuidNew]

/-- The iteration that meets end-of-stream: the sentinel is written, the metric
"success" recorded, and the loop stops. -/
theorem Stream_eof_step (env : Env) (stream : Nat → RecvResult)
    (modelName responseID : String) (fuel k : Nat) (tr : List Event)
    (hg : env.clientGone k = false) (h : stream (recvs tr) = .eof) :
    Stream env.clientGone (relayStep env stream modelName responseID) (fuel + 1) k tr
      = some (false, tr ++ [.recv, .write "data: [DONE]\n\n",
          .debug ("Stream finished for request on endpoint: " ++ modelName),
          .metric modelName "success"] ++ [.flush]) := by
  conv_lhs => unfold Stream
  simp only [hg, relayStep_eof env stream modelName responseID tr h, Bool.false_eq_true,
    if_false, Bool.not_false, if_true]

/-- The iteration that meets an error other than end-of-stream: the metric "failure" is
recorded, nothing is written, and the loop stops. -/
theorem Stream_err_step (env : Env) (stream : Nat → RecvResult)
    (modelName responseID : String) (fuel k : Nat) (tr : List Event) (e : String)
    (hg : env.clientGone k = false) (h : stream (recvs tr) = .err e) :
    Stream env.clientGone (relayStep env stream modelName responseID) (fuel + 1) k tr
      = some (false, tr ++ [.recv,
          .debug ("Stream error for request on endpoint: " ++ modelName ++ "; error " ++ e),
          .metric modelName "failure"] ++ [.flush]) := by
  conv_lhs => unfold Stream
  simp only [hg, relayStep_err env stream modelName responseID tr e h, Bool.false_eq_true,
    if_false, Bool.not_false, if_true]

/-- A whole relay that ends at end-of-stream: with the upstream yielding `chunks` and
then end-of-stream, the client connected throughout and fuel for one iteration per
`Recv`, the loop returns false after the frames of the stamped chunks and the
sentinel, with one metric record. -/
theorem Stream_to_eof (env : Env) (stream : Nat → RecvResult)
    (modelName responseID : String) (chunks : List Response) (fuel : Nat) (tr0 : List Event)
    (hr0 : recvs tr0 = 0)
    (hch : ∀ j (h : j < chunks.length), stream j = .chunk chunks[j])
    (heof : stream chunks.length = .eof)
    (hcl : ∀ k, k ≤ chunks.length → env.clientGone k = false)
    (hfuel : chunks.length < fuel) :
    ∃ out, Stream env.clientGone (relayStep env stream modelName responseID) fuel 0 tr0
        = some (false, out)
      ∧ writes out = writes tr0 ++ (chunks.map (stamp modelName responseID)).flatMap (frame env)
          ++ ["data: [DONE]\n\n"]
      ∧ metrics out = metrics tr0 ++ [(modelName, "success")]
      ∧ recvs out = chunks.length + 1
      ∧ uuids out = uuids tr0 := by
  obtain ⟨tr2, heq, hw, hm, hr, hu⟩ := Stream_relays_chunks env stream modelName responseID
    chunks (fuel - chunks.length) 0 tr0
    (by intro j h; rw [hr0, Nat.zero_add]; exact hch j h)
    (by intro j h; rw [Nat.zero_add]; exact hcl j (by omega))
  have hf : fuel - chunks.length + chunks.length = fuel := by omega
  rw [hf] at heq
  have hf2 : fuel - chunks.length = (fuel - chunks.length - 1) + 1 := by omega
  rw [hf2, Nat.zero_add] at heq
  rw [Stream_eof_step env stream modelName responseID _ _ tr2
    (hcl _ (Nat.le_refl _)) (by rw [hr, hr0, Nat.zero_add]; exact heof)] at heq
  refine ⟨_, heq, ?_, ?_, ?_, ?_⟩
  · rw [writes_append, writes_append, hw]
    simp [writes]
  · rw [metrics_append, metrics_append, hm]
    simp [metrics]
  · rw [recvs_append, recvs_append, hr, hr0]
    simp [recvs, Event.isRecv]
  · rw [uuids_append, uuids_append, hu]
    simp [uuids, Event.isUuidNew]

/-- A whole relay that ends at an upstream error other than end-of-stream: the loop
returns false after the frames of the stamped chunks, with no sentinel and one metric
record. -/
theorem Stream_to_err (env : Env) (stream : Nat → RecvResult)
    (modelName responseID : String) (chunks : List Response) (e : String) (fuel : Nat)
    (tr0 : List Event)
    (hr0 : recvs tr0 = 0)
    (hch : ∀ j (h : j < chunks.length), stream j = .chunk chunks[j])
    (herr : stream chunks.length = .err e)
    (hcl : ∀ k, k ≤ chunks.length → env.clientGone k = false)
    (hfuel : chunks.length < fuel) :
    ∃ out, Stream env.clientGone (relayStep env stream modelName responseID) fuel 0 tr0
        = some (false, out)
      ∧ writes out = writes tr0 ++ (chunks.map (stamp modelName responseID)).flatMap (frame env)
      ∧ metrics out = metrics tr0 ++ [(modelName, "failure")]
      ∧ recvs out = chunks.length + 1
      ∧ uuids out = uuids tr0 := by
  obtain ⟨tr2, heq, hw, hm, hr, hu⟩ := Stream_relays_chunks env stream modelName responseID
    chunks (fuel - chunks.length) 0 tr0
    (by intro j h; rw [hr0, Nat.zero_add]; exact hch j h)
    (by intro j h; rw [Nat.zero_add]; exact hcl j (by omega))
  have hf : fuel - chunks.length + chunks.length = fuel := by omega
  rw [hf] at heq
  have hf2 : fuel - chunks.length = (fuel - chunks.length - 1) + 1 := by omega
  rw [hf2, Nat.zero_add] at heq
  rw [Stream_err_step env stream modelName responseID _ _ tr2 e
    (hcl _ (Nat.le_refl _)) (by rw [hr, hr0, Nat.zero_add]; exact herr)] at heq
  refine ⟨_, heq, ?_, ?_, ?_, ?_⟩
  · rw [writes_append, writes_append, hw]
    simp [writes]
  · rw [metrics_append, metrics_append, hm]
    simp [metrics]
  · rw [recvs_append, recvs_append, hr, hr0]
    simp [recvs, Event.isRecv]
  · rw [uuids_append, uuids_append, hu]
    simp [uuids, Event.isUuidNew]

/-- The streaming branch of `Completion`: a valid streaming request whose stream opens
runs the relay loop from the trace of the ID generation and the service call, and
closes the stream when the handler returns. -/
theorem Completion_streaming (env : Env) (c : Context) (fuel : Nat)
    (req : CompletionRequest) (engine : Engine) (stream : Nat → RecvResult)
    (hreq : c.Get "completionsRequest" = some (.completionRequest req))
    (heng : c.Get EndpointEngine = some (.engine engine))
    (hs : req.Stream = true)
    (hopen : env.CompletionStream req engine = .ok stream) :
    Completion env c fuel
      = (Stream env.clientGone (relayStep env stream req.Model env.uuid) fuel 0
          [.uuidNew, .call "CompletionStream"]).map (fun out => out.2 ++ [.streamClose]) := by
  unfold Completion
  simp only [hreq, getEngineParam, heng, hs, if_true, hopen]

/-- The streaming branch of `ChatCompletion`, as for `Completion`. -/
theorem ChatCompletion_streaming (env : Env) (c : Context) (fuel : Nat)
    (req : ChatCompletionRequest) (engine : Engine) (stream : Nat → RecvResult)
    (hreq : c.Get "chatRequest" = some (.chatCompletionRequest req))
    (heng : c.Get EndpointEngine = some (.engine engine))
    (hs : req.Stream = true)
    (hopen : env.ChatCompletionStream req engine = .ok stream) :
    ChatCompletion env c fuel
      = (Stream env.clientGone (relayStep env stream req.Model env.uuid) fuel 0
          [.uuidNew, .call "ChatCompletionStream"]).map (fun out => out.2 ++ [.streamClose]) := by
  unfold ChatCompletion
  simp only [hreq, getEngineParam, heng, hs, if_true, hopen]

/-- Metric records of the relay loop: whenever the loop returns, it either stopped on
its own (false) having recorded exactly one more metric, or returned because the
client was gone (true) having recorded none. -/
theorem Stream_metrics (env : Env) (stream : Nat → RecvResult)
    (modelName responseID : String) :
    ∀ (fuel k : Nat) (tr : List Event) (b : Bool) (out : List Event),
      Stream env.clientGone (relayStep env stream modelName responseID) fuel k tr
        = some (b, out) →
      (b = false ∧ ∃ m, metrics out = metrics tr ++ [m])
      ∨ (b = true ∧ metrics out = metrics tr ∧ ∃ j, env.clientGone j = true) := by
  intro fuel
  induction fuel with
  | zero =>
    intro k tr b out h
    simp [Stream] at h
  | succ f ih =>
    intro k tr b out h
    unfold Stream at h
    by_cases hg : env.clientGone k = true
    · simp only [hg, if_true, Option.some.injEq, Prod.mk.injEq] at h
      right
      exact ⟨h.1.symm, by rw [← h.2], k, hg⟩
    · have hg2 : env.clientGone k = false := by simpa using hg
      cases hrecv : stream (recvs tr) with
      | eof =>
        rw [relayStep_eof env stream modelName responseID tr hrecv] at h
        simp only [hg2, Bool.false_eq_true, if_false, Bool.not_false, if_true,
          Option.some.injEq, Prod.mk.injEq] at h
        left
        refine ⟨h.1.symm, (modelName, "success"), ?_⟩
        rw [← h.2, metrics_append, metrics_append]
        simp [metrics]
      | err e =>
        rw [relayStep_err env stream modelName responseID tr e hrecv] at h
        simp only [hg2, Bool.false_eq_true, if_false, Bool.not_false, if_true,
          Option.some.injEq, Prod.mk.injEq] at h
        left
        refine ⟨h.1.symm, (modelName, "failure"), ?_⟩
        rw [← h.2, metrics_append, metrics_append]
        simp [metrics]
      | chunk r =>
        rw [relayStep_chunk env stream modelName responseID tr r hrecv] at h
        simp only [hg2, Bool.false_eq_true, if_false, Bool.not_true] at h
        have hm : metrics (streamResponse env (tr ++ [.recv]) (stamp modelName responseID r)
            ++ [.flush]) = metrics tr := by
          rw [metrics_append, streamResponse_metrics, metrics_append]
          simp [metrics]
        have := ih (k + 1) _ b out h
        rw [hm] at this
        exact this

/-! ## Claims on the streaming relay -/

/-- The ID of a stamped chunk: the session ID when the upstream ID is empty, the
upstream ID otherwise. -/
theorem stamp_ID (modelName responseID : String) (r : Response) :
    (r.ID = "" → (stamp modelName responseID r).ID = responseID)
    ∧ (r.ID ≠ "" → (stamp modelName responseID r).ID = r.ID) := by
  unfold stamp
  constructor
  · intro h; simp [h]
  · intro h; simp [h]

/-- Metric records of `Completion`: whenever the handler returns, it has recorded
exactly one metric, unless the relay loop returned because the client was gone, in
which case it has recorded none. -/
theorem Completion_metrics (env : Env) (c : Context) (fuel : Nat) (tr : List Event)
    (h : Completion env c fuel = some tr) :
    (∃ m, metrics tr = [m]) ∨ (metrics tr = [] ∧ ∃ j, env.clientGone j = true) := by
  unfold Completion at h
  cases hb : c.Get "completionsRequest" with
  | none =>
    simp only [hb, Option.some.injEq] at h
    left; rw [← h]; exact ⟨_, rfl⟩
  | some v =>
    cases v with
    | completionRequest req =>
      simp only [hb] at h
      cases he : getEngineParam c "Completions request failed" with
      | error err =>
        simp only [he, Option.some.injEq] at h
        left; rw [← h]; exact ⟨_, rfl⟩
      | ok engine =>
        simp only [he] at h
        by_cases hs : req.Stream = true
        · simp only [hs, if_true] at h
          cases hopen : env.CompletionStream req engine with
          | error err =>
            simp only [hopen, Option.some.injEq] at h
            left; rw [← h]; exact ⟨_, rfl⟩
          | ok stream =>
            simp only [hopen, Option.map_eq_some'] at h
            obtain ⟨⟨b, out⟩, ho, hout⟩ := h
            rcases Stream_metrics env stream req.Model env.uuid fuel 0 _ b out ho with
              ⟨_, m, hm⟩ | ⟨_, hm, hj⟩
            · left
              refine ⟨m, ?_⟩
              rw [← hout, metrics_append, hm]; simp [metrics]
            · right
              refine ⟨?_, hj⟩
              rw [← hout, metrics_append, hm]; simp [metrics]
        · simp only [hs, Bool.false_eq_true, if_false] at h
          cases hcall : env.Completion req engine with
          | error err =>
            simp only [hcall, Option.some.injEq] at h
            left; rw [← h]; exact ⟨_, rfl⟩
          | ok resp =>
            simp only [hcall, Option.some.injEq] at h
            left
            rw [← h]
            by_cases hid : resp.ID = "" <;> simp [hid, metrics]
    | chatCompletionRequest r =>
      simp only [hb, Option.some.injEq] at h
      left; rw [← h]; exact ⟨_, rfl⟩
    | engine e =>
      simp only [hb, Option.some.injEq] at h
      left; rw [← h]; exact ⟨_, rfl⟩
    | other s =>
      simp only [hb, Option.some.injEq] at h
      left; rw [← h]; exact ⟨_, rfl⟩

/-- Metric records of `ChatCompletion`, as for `Completion`. -/
theorem ChatCompletion_metrics (env : Env) (c : Context) (fuel : Nat) (tr : List Event)
    (h : ChatCompletion env c fuel = some tr) :
    (∃ m, metrics tr = [m]) ∨ (metrics tr = [] ∧ ∃ j, env.clientGone j = true) := by
  unfold ChatCompletion at h
  cases hb : c.Get "chatRequest" with
  | none =>
    simp only [hb, Option.some.injEq] at h
    left; rw [← h]; exact ⟨_, rfl⟩
  | some v =>
    cases v with
    | chatCompletionRequest req =>
      simp only [hb] at h
      cases he : getEngineParam c "Chat completions request failed" with
      | error err =>
        simp only [he, Option.some.injEq] at h
        left; rw [← h]; exact ⟨_, rfl⟩
      | ok engine =>
        simp only [he] at h
        by_cases hs : req.Stream = true
        · simp only [hs, if_true] at h
          cases hopen : env.ChatCompletionStream req engine with
          | error err =>
            simp only [hopen, Option.some.injEq] at h
            left; rw [← h]; exact ⟨_, rfl⟩
          | ok stream =>
            simp only [hopen, Option.map_eq_some'] at h
            obtain ⟨⟨b, out⟩, ho, hout⟩ := h
            rcases Stream_metrics env stream req.Model env.uuid fuel 0 _ b out ho with
              ⟨_, m, hm⟩ | ⟨_, hm, hj⟩
            · left
              refine ⟨m, ?_⟩
              rw [← hout, metrics_append, hm]; simp [metrics]
            · right
              refine ⟨?_, hj⟩
              rw [← hout, metrics_append, hm]; simp [metrics]
        · simp only [hs, Bool.false_eq_true, if_false] at h
          cases hcall : env.ChatCompletion req engine with
          | error err =>
            simp only [hcall, Option.some.injEq] at h
            left; rw [← h]; exact ⟨_, rfl⟩
          | ok resp =>
            simp only [hcall, Option.some.injEq] at h
            left
            rw [← h]
            by_cases hid : resp.ID = "" <;> simp [hid, metrics]
    | completionRequest r =>
      simp only [hb, Option.some.injEq] at h
      left; rw [← h]; exact ⟨_, rfl⟩
    | engine e =>
      simp only [hb, Option.some.injEq] at h
      left; rw [← h]; exact ⟨_, rfl⟩
    | other s =>
      simp only [hb, Option.some.injEq] at h
      left; rw [← h]; exact ⟨_, rfl⟩

/-- C9: a streaming request whose client goes away after the first chunk was relayed:
both handlers return with one `Recv` made, one frame written and no
`RecordInferenceMetrics` call at all, where the claim requires exactly one. -/
theorem metrics_missing_when_client_gone :
    (Completion (demoEnv .eof (fun k => decide (1 ≤ k))) demoContext 5).map
        (fun tr => (metrics tr, recvs tr, (writes tr).length)) = some ([], 1, 3)
    ∧ (ChatCompletion (demoEnv .eof (fun k => decide (1 ≤ k))) demoContext 5).map
        (fun tr => (metrics tr, recvs tr, (writes tr).length)) = some ([], 1, 3) := by
  decide

/-- C10 as stated fails: for a chunk that marshals to `js`, the bytes `streamResponse`
writes are not "data: " followed by `js` and a single newline. -/
theorem streamResponse_not_single_newline :
    ∃ js, demoMarshal ⟨"cmpl-1", "endpoint_id", "a"⟩ = .ok js
      ∧ String.join (writes (streamResponse (demoEnv .eof (fun _ => false)) []
          ⟨"cmpl-1", "endpoint_id", "a"⟩)) ≠ "data: " ++ js ++ "\n" :=
  ⟨_, rfl, by decide⟩

/-- C10, amended: for every chunk that marshals to the JSON text `js`, `streamResponse`
makes exactly three writes, "data: ", then `js` with the newline the encoder appends,
then "\n": the bytes are "data: " followed by `js` followed by two newline
characters. -/
theorem streamResponse_frame (env : Env) (tr : List Event) (r : Response) (js : String)
    (h : env.marshal r = .ok js) :
    streamResponse env tr r = tr ++ [.write "data: ", .write (js ++ "\n"), .write "\n"]
    ∧ String.join (writes (streamResponse env [] r)) = "data: " ++ js ++ "\n\n" := by
  have h1 : streamResponse env tr r
      = tr ++ [.write "data: ", .write (js ++ "\n"), .write "\n"] := by
    unfold streamResponse
    simp [h]
  have h2 : streamResponse env [] r
      = [.write "data: ", .write (js ++ "\n"), .write "\n"] := by
    unfold streamResponse
    simp [h]
  refine ⟨h1, ?_⟩
  rw [h2]
  simp [writes, String.join, String.append_assoc]

/-- C10, instance: a chunk of the relay under the demo encoder. -/
theorem streamResponse_frame_witness :
    streamResponse (demoEnv .eof (fun _ => false)) [.recv] ⟨"cmpl-1", "endpoint_id", "a"⟩
      = [.recv] ++ [.write "data: ",
          .write ("\x7b\"id\":\"cmpl-1\",\"model\":\"endpoint_id\",\"rest\":\"a\"\x7d" ++ "\n"),
          .write "\n"]
    ∧ String.join (writes (streamResponse (demoEnv .eof (fun _ => false)) []
          ⟨"cmpl-1", "endpoint_id", "a"⟩))
        = "data: " ++ "\x7b\"id\":\"cmpl-1\",\"model\":\"endpoint_id\",\"rest\":\"a\"\x7d"
          ++ "\n\n" :=
  streamResponse_frame (demoEnv .eof (fun _ => false)) [.recv]
    ⟨"cmpl-1", "endpoint_id", "a"⟩
    "\x7b\"id\":\"cmpl-1\",\"model\":\"endpoint_id\",\"rest\":\"a\"\x7d" rfl

end Inference

namespace Inference

/-! ## Claims on the end of a session and on the other paths of the handlers -/

/-- A frame holds no sentinel write, as long as the JSON text of a chunk is not the
sentinel's text. -/
theorem frame_count_sentinel (env : Env) (r : Response)
    (hjson : ∀ r js, env.marshal r = .ok js → js ++ "\n" ≠ "data: [DONE]\n\n") :
    (frame env r).count "data: [DONE]\n\n" = 0 := by
  unfold frame streamResponse
  cases hm : env.marshal r with
  | error e =>
    simp only [List.nil_append, List.singleton_append]
    decide
  | ok js =>
    have h := hjson r js hm
    simp only [List.nil_append, List.singleton_append]
    simp [writes, List.count_cons, h]

theorem frames_count_sentinel (env : Env) (rs : List Response)
    (hjson : ∀ r js, env.marshal r = .ok js → js ++ "\n" ≠ "data: [DONE]\n\n") :
    (rs.flatMap (frame env)).count "data: [DONE]\n\n" = 0 := by
  induction rs with
  | nil => rfl
  | cons r rs ih =>
    rw [List.flatMap_cons, List.count_append, frame_count_sentinel env r hjson, ih]

/-- A session that ends on the upstream's word (end-of-stream or another error after
the chunks of `chunks`): the loop stops there, after exactly one `Recv` per chunk and
one for the end. -/
theorem Stream_ended (env : Env) (stream : Nat → RecvResult)
    (modelName responseID : String) (chunks : List Response) (fuel : Nat) (tr0 : List Event)
    (hr0 : recvs tr0 = 0)
    (hch : ∀ j (h : j < chunks.length), stream j = .chunk chunks[j])
    (hend : stream chunks.length = .eof ∨ ∃ e, stream chunks.length = .err e)
    (hcl : ∀ k, k ≤ chunks.length → env.clientGone k = false)
    (hfuel : chunks.length < fuel) :
    ∃ out, Stream env.clientGone (relayStep env stream modelName responseID) fuel 0 tr0
        = some (false, out)
      ∧ writes out = writes tr0 ++ (chunks.map (stamp modelName responseID)).flatMap (frame env)
          ++ (match stream chunks.length with
              | .eof => ["data: [DONE]\n\n"]
              | _ => [])
      ∧ recvs out = chunks.length + 1 := by
  rcases hend with h | ⟨e, h⟩
  · obtain ⟨out, ho, hw, _, hr, _⟩ := Stream_to_eof env stream modelName responseID chunks
      fuel tr0 hr0 hch h hcl hfuel
    exact ⟨out, ho, by rw [hw, h], hr⟩
  · obtain ⟨out, ho, hw, _, hr, _⟩ := Stream_to_err env stream modelName responseID chunks e
      fuel tr0 hr0 hch h hcl hfuel
    exact ⟨out, ho, by rw [hw, h]; simp, hr⟩

/-- C11: in a streaming session of `Completion` or `ChatCompletion` whose upstream
yields the chunks c1..cn and then end-of-stream or another error, whatever the
upstream would yield on later `Recv` calls and however many more iterations the loop
could run: the handler returns after exactly n+1 `Recv` calls, its writes are the n
frames followed by the sentinel in the end-of-stream case and by nothing otherwise,
and the sentinel is written at most once. -/
theorem relay_stops_at_end (env : Env) (c : Context) (engine : Engine)
    (stream : Nat → RecvResult) (chunks : List Response) (fuel : Nat)
    (heng : c.Get EndpointEngine = some (.engine engine))
    (hch : ∀ j (h : j < chunks.length), stream j = .chunk chunks[j])
    (hend : stream chunks.length = .eof ∨ ∃ e, stream chunks.length = .err e)
    (hcl : ∀ k, k ≤ chunks.length → env.clientGone k = false)
    (hfuel : chunks.length < fuel)
    (hjson : ∀ r js, env.marshal r = .ok js → js ++ "\n" ≠ "data: [DONE]\n\n") :
    (∀ req : CompletionRequest,
      c.Get "completionsRequest" = some (.completionRequest req) → req.Stream = true →
      env.CompletionStream req engine = .ok stream →
      ∃ tr, Completion env c fuel = some tr
        ∧ recvs tr = chunks.length + 1
        ∧ writes tr = (chunks.map (stamp req.Model env.uuid)).flatMap (frame env)
            ++ (match stream chunks.length with
                | .eof => ["data: [DONE]\n\n"]
                | _ => [])
        ∧ sentinels tr ≤ 1)
    ∧ (∀ req : ChatCompletionRequest,
      c.Get "chatRequest" = some (.chatCompletionRequest req) → req.Stream = true →
      env.ChatCompletionStream req engine = .ok stream →
      ∃ tr, ChatCompletion env c fuel = some tr
        ∧ recvs tr = chunks.length + 1
        ∧ writes tr = (chunks.map (stamp req.Model env.uuid)).flatMap (frame env)
            ++ (match stream chunks.length with
                | .eof => ["data: [DONE]\n\n"]
                | _ => [])
        ∧ sentinels tr ≤ 1) := by
  have hcount : ∀ (m : String) (ws : List String),
      ws = (chunks.map (stamp m env.uuid)).flatMap (frame env)
          ++ (match stream chunks.length with
              | .eof => ["data: [DONE]\n\n"]
              | _ => []) →
      ws.count "data: [DONE]\n\n" ≤ 1 := by
    intro m ws hws
    rw [hws, List.count_append, frames_count_sentinel env _ hjson]
    cases stream chunks.length <;> simp
  constructor
  · intro req hreq hs hopen
    obtain ⟨out, ho, hw, hr⟩ := Stream_ended env stream req.Model env.uuid chunks fuel
      [.uuidNew, .call "CompletionStream"] rfl hch hend hcl hfuel
    have hw2 : writes (out ++ [.streamClose])
        = (chunks.map (stamp req.Model env.uuid)).flatMap (frame env)
          ++ (match stream chunks.length with
              | .eof => ["data: [DONE]\n\n"]
              | _ => []) := by
      rw [writes_append, hw]; simp [writes]
    refine ⟨out ++ [.streamClose], ?_, ?_, hw2, ?_⟩
    · rw [Completion_streaming env c fuel req engine stream hreq heng hs hopen, ho]; rfl
    · rw [recvs_append, hr]; rfl
    · exact hcount req.Model _ hw2
  · intro req hreq hs hopen
    obtain ⟨out, ho, hw, hr⟩ := Stream_ended env stream req.Model env.uuid chunks fuel
      [.uuidNew, .call "ChatCompletionStream"] rfl hch hend hcl hfuel
    have hw2 : writes (out ++ [.streamClose])
        = (chunks.map (stamp req.Model env.uuid)).flatMap (frame env)
          ++ (match stream chunks.length with
              | .eof => ["data: [DONE]\n\n"]
              | _ => []) := by
      rw [writes_append, hw]; simp [writes]
    refine ⟨out ++ [.streamClose], ?_, ?_, hw2, ?_⟩
    · rw [ChatCompletion_streaming env c fuel req engine stream hreq heng hs hopen, ho]; rfl
    · rw [recvs_append, hr]; rfl
    · exact hcount req.Model _ hw2

theorem demoMarshal_not_sentinel :
    ∀ r js, demoMarshal r = .ok js → js ++ "\n" ≠ "data: [DONE]\n\n" := by
  intro r js h hEq
  unfold demoMarshal at h
  injection h with h
  have h2 : js = "data: [DONE]\n" := by
    have := congrArg String.data hEq
    simp only [String.data_append] at this
    apply String.ext
    exact List.append_cancel_right this
  rw [h2] at h
  have h3 := congrArg (fun s => s.data.head?) h
  simp at h3

/-- C11, instance: an upstream that yields two chunks, end-of-stream, and would go on
yielding chunks; with fuel for ten iterations the relay still stops after three `Recv`
calls. -/
theorem relay_stops_at_end_witness :
    ∃ tr, Completion resumingEnv demoContext 10 = some tr
      ∧ recvs tr = demoChunks.length + 1
      ∧ writes tr = (demoChunks.map (stamp "endpoint_id" "3f2b1c9e-generated")).flatMap
            (frame resumingEnv)
          ++ (match resumingStream demoChunks.length with
              | .eof => ["data: [DONE]\n\n"]
              | _ => [])
      ∧ sentinels tr ≤ 1 :=
  (relay_stops_at_end resumingEnv demoContext ⟨"vllm"⟩ resumingStream demoChunks 10 rfl
    (by
      intro j h
      have hj : j = 0 ∨ j = 1 := by simp [demoChunks] at h; omega
      rcases hj with rfl | rfl <;> rfl)
    (Or.inl rfl) (fun _ _ => rfl) (by decide) demoMarshal_not_sentinel).1
    ⟨"endpoint_id", "text", true⟩ rfl rfl rfl

end Inference

namespace Inference

/-- C15: when the context holds nothing under the request key the handler records the
metric ("", "invalid") and answers with a NotFoundError; when it holds a value that is
not of the expected request type it records the same metric and answers with a
BindingError. In both cases the trace is that one metric record followed by that one
response: the inference service is not called. -/
theorem request_missing_or_ill_typed (env : Env) (c : Context) (fuel : Nat) :
    (c.Get "completionsRequest" = none →
      Completion env c fuel = some [.metric "" "invalid",
        .httpResponse ⟨"Completions request success",
          some ⟨.NotFoundError, "Completions request failed: failed retrieving request body",
            "failed retrieving request body"⟩, none, false⟩])
    ∧ (∀ v, c.Get "completionsRequest" = some v → (∀ r, v ≠ .completionRequest r) →
      Completion env c fuel = some [.metric "" "invalid",
        .httpResponse ⟨"Completions request success",
          some ⟨.BindingError, "Completions request failed", "failed parsing request body"⟩,
          none, false⟩])
    ∧ (c.Get "chatRequest" = none →
      ChatCompletion env c fuel = some [.metric "" "invalid",
        .httpResponse ⟨"Chat completions request success",
          some ⟨.NotFoundError,
            "Chat completions request failed: failed retrieving request body",
            "failed retrieving request body"⟩, none, false⟩])
    ∧ (∀ v, c.Get "chatRequest" = some v → (∀ r, v ≠ .chatCompletionRequest r) →
      ChatCompletion env c fuel = some [.metric "" "invalid",
        .httpResponse ⟨"Chat completions request success",
          some ⟨.BindingError, "Chat completions request failed",
            "failed parsing request body"⟩, none, false⟩]) := by
  refine ⟨?_, ?_, ?_, ?_⟩
  · intro h
    unfold Completion
    simp only [h]
    rfl
  · intro v h hv
    unfold Completion
    simp only [h]
  · intro h
    unfold ChatCompletion
    simp only [h]
    rfl
  · intro v h hv
    unfold ChatCompletion
    simp only [h]

/-- C15, instance: a context whose "completionsRequest" holds a catalog DTO. -/
theorem request_missing_or_ill_typed_witness :
    Completion (demoEnv .eof (fun _ => false))
        (contextOf (some (.other "dto.CreateCatalogRequest")) none none) 3
      = some [.metric "" "invalid",
        .httpResponse ⟨"Completions request success",
          some ⟨.BindingError, "Completions request failed", "failed parsing request body"⟩,
          none, false⟩] :=
  (request_missing_or_ill_typed (demoEnv .eof (fun _ => false))
    (contextOf (some (.other "dto.CreateCatalogRequest")) none none) 3).2.1
    (.other "dto.CreateCatalogRequest") rfl (by intro r h; cases h)

/-- C16: `getEngineParam` returns an engine with no error exactly when the context holds
a value of type `enum.Engine` under the engine key; a missing key gives a
NotFoundError and a value of another type a ParsingError. When it fails for a
well-typed request, the handler's trace is the metric record ("", "invalid") followed
by the response carrying that error: the request's model name is not used and the
inference service is not called. -/
theorem engine_param_checked (env : Env) (c : Context) (fuel : Nat) (errMsg : String) :
    (∀ engine, getEngineParam c errMsg = .ok engine
        ↔ c.Get EndpointEngine = some (.engine engine))
    ∧ (c.Get EndpointEngine = none →
        getEngineParam c errMsg = .error ⟨.NotFoundError,
          errMsg ++ ": " ++ "failed retrieving engine param", "failed retrieving engine param"⟩)
    ∧ (∀ v, c.Get EndpointEngine = some v → (∀ e, v ≠ .engine e) →
        getEngineParam c errMsg = .error ⟨.ParsingError, errMsg,
          "engine should be one of tgi/vllm/nim. Please specify a valid engine"⟩)
    ∧ (∀ req err, c.Get "completionsRequest" = some (.completionRequest req) →
        getEngineParam c "Completions request failed" = .error err →
        Completion env c fuel
          = some [.metric "" "invalid", .httpResponse ⟨"", some err, none, false⟩])
    ∧ (∀ req err, c.Get "chatRequest" = some (.chatCompletionRequest req) →
        getEngineParam c "Chat completions request failed" = .error err →
        ChatCompletion env c fuel
          = some [.metric "" "invalid", .httpResponse ⟨"", some err, none, false⟩]) := by
  refine ⟨?_, ?_, ?_, ?_, ?_⟩
  · intro engine
    unfold getEngineParam
    cases h : c.Get EndpointEngine with
    | none => simp
    | some v => cases v <;> simp
  · intro h
    unfold getEngineParam
    simp only [h]
  · intro v h hv
    unfold getEngineParam
    simp only [h]
  · intro req err hreq he
    unfold Completion
    simp only [hreq, he]
  · intro req err hreq he
    unfold ChatCompletion
    simp only [hreq, he]

/-- C16, instance: the engine key holds the plain string "wrong". -/
theorem engine_param_checked_witness :
    Completion (demoEnv .eof (fun _ => false))
        (contextOf (some (.completionRequest ⟨"endpoint_id", "text", false⟩)) none
          (some (.other "wrong"))) 3
      = some [.metric "" "invalid",
        .httpResponse ⟨"", some ⟨.ParsingError, "Completions request failed",
          "engine should be one of tgi/vllm/nim. Please specify a valid engine"⟩,
          none, false⟩] :=
  (engine_param_checked (demoEnv .eof (fun _ => false))
    (contextOf (some (.completionRequest ⟨"endpoint_id", "text", false⟩)) none
      (some (.other "wrong"))) 3 "Completions request failed").2.2.2.1
    ⟨"endpoint_id", "text", false⟩ _ rfl rfl

end Inference

namespace Inference

/-- The non-streaming success path of `Completion`: the service is called once, an ID is
generated only for a response without one, the metric "success" is recorded and the
response is returned with the requested model name. -/
theorem Completion_blocking_ok (env : Env) (c : Context) (fuel : Nat)
    (req : CompletionRequest) (engine : Engine) (up : Response)
    (hreq : c.Get "completionsRequest" = some (.completionRequest req))
    (heng : c.Get EndpointEngine = some (.engine engine))
    (hs : req.Stream = false)
    (hcall : env.Completion req engine = .ok up) :
    Completion env c fuel
      = some ([.call "Completion"] ++ (if up.ID = "" then [Event.uuidNew] else [])
          ++ [.metric req.Model "success",
              .httpResponse ⟨"Completions request success", none,
                some ⟨if up.ID = "" then env.uuid else up.ID, req.Model, up.Rest⟩, true⟩]) := by
  unfold Completion
  simp only [hreq, getEngineParam, heng, hs, Bool.false_eq_true, if_false, hcall]
  by_cases hid : up.ID = "" <;> simp [hid]

/-- The non-streaming success path of `ChatCompletion`, as for `Completion`. -/
theorem ChatCompletion_blocking_ok (env : Env) (c : Context) (fuel : Nat)
    (req : ChatCompletionRequest) (engine : Engine) (up : Response)
    (hreq : c.Get "chatRequest" = some (.chatCompletionRequest req))
    (heng : c.Get EndpointEngine = some (.engine engine))
    (hs : req.Stream = false)
    (hcall : env.ChatCompletion req engine = .ok up) :
    ChatCompletion env c fuel
      = some ([.call "ChatCompletion"] ++ (if up.ID = "" then [Event.uuidNew] else [])
          ++ [.metric req.Model "success",
              .httpResponse ⟨"Chat completions request success", none,
                some ⟨if up.ID = "" then env.uuid else up.ID, req.Model, up.Rest⟩, true⟩]) := by
  unfold ChatCompletion
  simp only [hreq, getEngineParam, heng, hs, Bool.false_eq_true, if_false, hcall]
  by_cases hid : up.ID = "" <;> simp [hid]

/-- C17: for a non-streaming `Completion` or `ChatCompletion` request whose backend call
succeeds with the response `up`, the handler returns one response; it keeps the
upstream ID when that is non-empty (and no ID is generated), and carries the newly
generated ID, which is non-empty as every generated UUID is, when the upstream ID is
empty (one ID is generated); `RecordInferenceMetrics` is called once, with the
requested model name and "success". -/
theorem blocking_success (env : Env) (c : Context) (fuel : Nat) (engine : Engine)
    (up : Response)
    (heng : c.Get EndpointEngine = some (.engine engine))
    (huuid : env.uuid ≠ "") :
    (∀ req : CompletionRequest,
      c.Get "completionsRequest" = some (.completionRequest req) → req.Stream = false →
      env.Completion req engine = .ok up →
      ∃ tr resp, Completion env c fuel = some tr
        ∧ responses tr = [resp]
        ∧ metrics tr = [(req.Model, "success")]
        ∧ (up.ID ≠ "" → resp.ID = up.ID ∧ uuids tr = 0)
        ∧ (up.ID = "" → resp.ID = env.uuid ∧ uuids tr = 1)
        ∧ resp.ID ≠ "")
    ∧ (∀ req : ChatCompletionRequest,
      c.Get "chatRequest" = some (.chatCompletionRequest req) → req.Stream = false →
      env.ChatCompletion req engine = .ok up →
      ∃ tr resp, ChatCompletion env c fuel = some tr
        ∧ responses tr = [resp]
        ∧ metrics tr = [(req.Model, "success")]
        ∧ (up.ID ≠ "" → resp.ID = up.ID ∧ uuids tr = 0)
        ∧ (up.ID = "" → resp.ID = env.uuid ∧ uuids tr = 1)
        ∧ resp.ID ≠ "") := by
  constructor
  · intro req hreq hs hcall
    refine ⟨_, ⟨if up.ID = "" then env.uuid else up.ID, req.Model, up.Rest⟩,
      Completion_blocking_ok env c fuel req engine up hreq heng hs hcall, ?_, ?_, ?_, ?_, ?_⟩
    · by_cases hid : up.ID = "" <;> simp [hid, responses]
    · by_cases hid : up.ID = "" <;> simp [hid, metrics]
    · intro hid; simp [hid, uuids, Event.isUuidNew]
    · intro hid; simp [hid, uuids, Event.isUuidNew]
    · by_cases hid : up.ID = "" <;> simp [hid, huuid]
  · intro req hreq hs hcall
    refine ⟨_, ⟨if up.ID = "" then env.uuid else up.ID, req.Model, up.Rest⟩,
      ChatCompletion_blocking_ok env c fuel req engine up hreq heng hs hcall, ?_, ?_, ?_, ?_, ?_⟩
    · by_cases hid : up.ID = "" <;> simp [hid, responses]
    · by_cases hid : up.ID = "" <;> simp [hid, metrics]
    · intro hid; simp [hid, uuids, Event.isUuidNew]
    · intro hid; simp [hid, uuids, Event.isUuidNew]
    · by_cases hid : up.ID = "" <;> simp [hid, huuid]

/-- C17, instance: a blocking `Completion` whose backend answers with ID "cmpl-7". -/
theorem blocking_success_witness :
    ∃ tr resp,
      Completion (blockingEnv (.ok ⟨"cmpl-7", "upstream-model", "a"⟩)
          ⟨.GenericError, "open failed", ""⟩)
        (contextOf (some (.completionRequest ⟨"endpoint_id", "text", false⟩)) none
          (some (.engine ⟨"vllm"⟩))) 0 = some tr
      ∧ responses tr = [resp]
      ∧ metrics tr = [("endpoint_id", "success")]
      ∧ ("cmpl-7" ≠ "" → resp.ID = "cmpl-7" ∧ uuids tr = 0)
      ∧ ("cmpl-7" = "" → resp.ID = "3f2b1c9e-generated" ∧ uuids tr = 1)
      ∧ resp.ID ≠ "" :=
  (blocking_success (blockingEnv (.ok ⟨"cmpl-7", "upstream-model", "a"⟩)
      ⟨.GenericError, "open failed", ""⟩)
    (contextOf (some (.completionRequest ⟨"endpoint_id", "text", false⟩)) none
      (some (.engine ⟨"vllm"⟩))) 0 ⟨"vllm"⟩ ⟨"cmpl-7", "upstream-model", "a"⟩ rfl
    (by decide)).1 ⟨"endpoint_id", "text", false⟩ rfl rfl rfl

/-- C18: when the backend call fails with an error, be it the blocking call of a
non-streaming request or the call that opens the stream, the handler's trace is the
service call (preceded by the ID generation on the streaming path), one metric record
with the requested model name and "failure", and the response carrying that very
error: nothing is written to the client as a frame. -/
theorem backend_failure (env : Env) (c : Context) (fuel : Nat) (engine : Engine)
    (err : Error)
    (heng : c.Get EndpointEngine = some (.engine engine)) :
    (∀ req : CompletionRequest,
      c.Get "completionsRequest" = some (.completionRequest req) →
      (req.Stream = false → env.Completion req engine = .error err →
        Completion env c fuel = some [.call "Completion", .metric req.Model "failure",
          .httpResponse ⟨"", some err, none, false⟩])
      ∧ (req.Stream = true → env.CompletionStream req engine = .error err →
        Completion env c fuel = some [.uuidNew, .call "CompletionStream",
          .metric req.Model "failure", .httpResponse ⟨"", some err, none, false⟩]))
    ∧ (∀ req : ChatCompletionRequest,
      c.Get "chatRequest" = some (.chatCompletionRequest req) →
      (req.Stream = false → env.ChatCompletion req engine = .error err →
        ChatCompletion env c fuel = some [.call "ChatCompletion",
          .metric req.Model "failure", .httpResponse ⟨"", some err, none, false⟩])
      ∧ (req.Stream = true → env.ChatCompletionStream req engine = .error err →
        ChatCompletion env c fuel = some [.uuidNew, .call "ChatCompletionStream",
          .metric req.Model "failure", .httpResponse ⟨"", some err, none, false⟩])) := by
  constructor
  · intro req hreq
    constructor
    · intro hs hcall
      unfold Completion
      simp only [hreq, getEngineParam, heng, hs, Bool.false_eq_true, if_false, hcall]
    · intro hs hopen
      unfold Completion
      simp only [hreq, getEngineParam, heng, hs, if_true, hopen]
  · intro req hreq
    constructor
    · intro hs hcall
      unfold ChatCompletion
      simp only [hreq, getEngineParam, heng, hs, Bool.false_eq_true, if_false, hcall]
    · intro hs hopen
      unfold ChatCompletion
      simp only [hreq, getEngineParam, heng, hs, if_true, hopen]

/-- C18, instance: a streaming `ChatCompletion` whose stream cannot be opened. -/
theorem backend_failure_witness :
    ChatCompletion (blockingEnv (.error ⟨.GenericError, "inference failed", ""⟩)
        ⟨.GenericError, "Chat Completion inference failed", ""⟩)
      (contextOf none (some (.chatCompletionRequest ⟨"endpoint_id", ["text"], true⟩))
        (some (.engine ⟨"vllm"⟩))) 3
      = some [.uuidNew, .call "ChatCompletionStream", .metric "endpoint_id" "failure",
          .httpResponse ⟨"", some ⟨.GenericError, "Chat Completion inference failed", ""⟩,
            none, false⟩] :=
  ((backend_failure (blockingEnv (.error ⟨.GenericError, "inference failed", ""⟩)
      ⟨.GenericError, "Chat Completion inference failed", ""⟩)
    (contextOf none (some (.chatCompletionRequest ⟨"endpoint_id", ["text"], true⟩))
      (some (.engine ⟨"vllm"⟩))) 3 ⟨"vllm"⟩
    ⟨.GenericError, "Chat Completion inference failed", ""⟩ rfl).2
    ⟨"endpoint_id", ["text"], true⟩ rfl).2 rfl rfl

/-- The model name of a stamped chunk is the requested one. -/
theorem stamp_Model (modelName responseID : String) (r : Response) :
    (stamp modelName responseID r).Model = modelName := by
  unfold stamp
  rfl

end Inference

namespace Health

/-! ## Claims on the health prober -/

theorem doCalls_append (a b : List Call) : doCalls (a ++ b) = doCalls a + doCalls b := by
  simp [doCalls]

/-- The loop finds the first successful attempt: when one of the remaining attempts
would succeed, the probe ends Healthy at the first that does, having made one call
per attempt up to and including it. -/
theorem probeLoop_healthy (p : Prober) (req : Client.Request) :
    ∀ (remaining : Nat) (tr : List Call) (j : Nat), j < remaining →
      probeOK (p.Do (doCalls tr + j) req) = true →
      ∃ tr2 k, probeLoop p req remaining tr = (.Healthy, tr2)
        ∧ doCalls tr2 = doCalls tr + k + 1 ∧ k ≤ j
        ∧ probeOK (p.Do (doCalls tr + k) req) = true
        ∧ ∀ i, i < k → probeOK (p.Do (doCalls tr + i) req) = false := by
  intro remaining
  induction remaining with
  | zero => intro tr j hj; omega
  | succ n ih =>
    intro tr j hj hok
    unfold probeLoop
    by_cases h0 : probeOK (p.Do (doCalls tr) req) = true
    · refine ⟨tr ++ [.doCall req], 0, by simp only [h0, if_true], ?_, Nat.zero_le _, h0, ?_⟩
      · rw [doCalls_append]; rfl
      · intro i hi; omega
    · have h0f : probeOK (p.Do (doCalls tr) req) = false := by simpa using h0
      have hjpos : 0 < j := by
        rcases Nat.eq_zero_or_pos j with h | h
        · rw [h, Nat.add_zero] at hok; exact absurd hok h0
        · exact h
      have hd : doCalls (tr ++ [Call.doCall req]) = doCalls tr + 1 := by
        rw [doCalls_append]; rfl
      obtain ⟨tr2, k, heq, hc, hk, hokk, hbefore⟩ := ih (tr ++ [.doCall req]) (j - 1)
        (by omega)
        (by rw [hd]; have : doCalls tr + 1 + (j - 1) = doCalls tr + j := by omega
            rw [this]; exact hok)
      refine ⟨tr2, k + 1, ?_, ?_, by omega, ?_, ?_⟩
      · simp only [h0f, Bool.false_eq_true, if_false]; exact heq
      · rw [hc, hd]; omega
      · have : doCalls tr + (k + 1) = doCalls tr + 1 + k := by omega
        rw [this, ← hd]; exact hokk
      · intro i hi
        rcases Nat.eq_zero_or_pos i with h | h
        · rw [h, Nat.add_zero]; exact h0f
        · have := hbefore (i - 1) (by omega)
          rw [hd] at this
          have h2 : doCalls tr + 1 + (i - 1) = doCalls tr + i := by omega
          rw [h2] at this; exact this

/-- The loop runs out: when every remaining attempt fails, the probe ends Critical
after one call per attempt. -/
theorem probeLoop_critical (p : Prober) (req : Client.Request) :
    ∀ (remaining : Nat) (tr : List Call),
      (∀ j, j < remaining → probeOK (p.Do (doCalls tr + j) req) = false) →
      ∃ tr2, probeLoop p req remaining tr = (.Critical, tr2)
        ∧ doCalls tr2 = doCalls tr + remaining := by
  intro remaining
  induction remaining with
  | zero => intro tr _; exact ⟨tr, rfl, rfl⟩
  | succ n ih =>
    intro tr hfail
    have h0 : probeOK (p.Do (doCalls tr) req) = false := by
      have := hfail 0 (Nat.succ_pos n)
      rw [Nat.add_zero] at this; exact this
    have hd : doCalls (tr ++ [Call.doCall req]) = doCalls tr + 1 := by
      rw [doCalls_append]; rfl
    obtain ⟨tr2, heq, hc⟩ := ih (tr ++ [.doCall req])
      (by
        intro j hj
        have := hfail (j + 1) (by omega)
        rw [hd]
        have h2 : doCalls tr + 1 + j = doCalls tr + (j + 1) := by omega
        rw [h2]; exact this)
    refine ⟨tr2, ?_, by rw [hc, hd]; omega⟩
    unfold probeLoop
    simp only [h0, Bool.false_eq_true, if_false]
    exact heq

/-- C12: when the probe request can be built and some attempt j among the first
`maxAttempts` returns HTTP 200 with no error, `CheckHealth` returns Healthy after
exactly k+1 transport calls, where attempt k is the first such attempt: none is made
after that 200. So a 200 on the first attempt gives Healthy after exactly 1 call, and
a failed first attempt followed by a 200 gives Healthy after exactly 2 calls. -/
theorem CheckHealth_healthy (p : Prober) (maxAttempts : Nat) (endpointURL : String)
    (req : Client.Request) (j : Nat)
    (hreq : p.NewRequest "GET" endpointURL = .ok req)
    (hj : j < maxAttempts)
    (hok : (p.Do j req).err = none ∧ ∃ resp, (p.Do j req).resp = some resp
      ∧ resp.StatusCode = 200) :
    ∃ tr k, CheckHealth p maxAttempts endpointURL = (.Healthy, tr)
      ∧ doCalls tr = k + 1 ∧ k ≤ j
      ∧ probeOK (p.Do k req) = true
      ∧ (∀ i, i < k → probeOK (p.Do i req) = false)
      ∧ (j = 0 → doCalls tr = 1)
      ∧ (j = 1 → probeOK (p.Do 0 req) = false → doCalls tr = 2) := by
  have hokb : probeOK (p.Do j req) = true := by
    obtain ⟨he, resp, hr, hs⟩ := hok
    unfold probeOK
    rw [he, hr]
    simp [hs]
  obtain ⟨tr, k, heq, hc, hk, hokk, hbefore⟩ := probeLoop_healthy p req maxAttempts
    [.setTimeout probeTimeout] j hj (by simpa [doCalls, Call.isDo] using hokb)
  have hz : doCalls [Call.setTimeout probeTimeout] = 0 := rfl
  rw [hz] at hc hokk hbefore
  simp only [Nat.zero_add] at hc hokk hbefore
  refine ⟨tr, k, ?_, hc, hk, hokk, hbefore, ?_, ?_⟩
  · unfold CheckHealth
    simp only [hreq]
    exact heq
  · intro h0; omega
  · intro h1 hfirst
    have : k ≠ 0 := by
      intro hk0
      rw [hk0] at hokk
      rw [hokk] at hfirst
      cases hfirst
    omega

/-- C12, instance: a 500 followed by a 200, with three attempts allowed. -/
theorem CheckHealth_healthy_witness :
    ∃ tr k, CheckHealth (demoProber 1) 3
        "http://endpoint-1.nai-admin.svc.cluster.local/v2/health/live" = (.Healthy, tr)
      ∧ doCalls tr = k + 1 ∧ k ≤ 1
      ∧ probeOK ((demoProber 1).Do k
          ⟨"GET", "http://endpoint-1.nai-admin.svc.cluster.local/v2/health/live", []⟩) = true
      ∧ (∀ i, i < k → probeOK ((demoProber 1).Do i
          ⟨"GET", "http://endpoint-1.nai-admin.svc.cluster.local/v2/health/live", []⟩) = false)
      ∧ (1 = 0 → doCalls tr = 1)
      ∧ (1 = 1 → probeOK ((demoProber 1).Do 0
          ⟨"GET", "http://endpoint-1.nai-admin.svc.cluster.local/v2/health/live", []⟩) = false
          → doCalls tr = 2) :=
  CheckHealth_healthy (demoProber 1) 3
    "http://endpoint-1.nai-admin.svc.cluster.local/v2/health/live"
    ⟨"GET", "http://endpoint-1.nai-admin.svc.cluster.local/v2/health/live", []⟩ 1
    rfl (by decide) ⟨rfl, ⟨200, .ok "live"⟩, rfl, rfl⟩

/-- C13: when the probe request can be built and each of the `maxAttempts` attempts
fails, by returning an error or a status other than 200, `CheckHealth` returns
Critical after exactly `maxAttempts` transport calls. -/
theorem CheckHealth_critical (p : Prober) (maxAttempts : Nat) (endpointURL : String)
    (req : Client.Request)
    (hreq : p.NewRequest "GET" endpointURL = .ok req)
    (hfail : ∀ j, j < maxAttempts →
      ((p.Do j req).err ≠ none ∨ ∀ resp, (p.Do j req).resp = some resp → resp.StatusCode ≠ 200)) :
    ∃ tr, CheckHealth p maxAttempts endpointURL = (.Critical, tr)
      ∧ doCalls tr = maxAttempts := by
  obtain ⟨tr, heq, hc⟩ := probeLoop_critical p req maxAttempts [.setTimeout probeTimeout]
    (by
      intro j hj
      have hz : doCalls [Call.setTimeout probeTimeout] = 0 := rfl
      rw [hz, Nat.zero_add]
      have h := hfail j hj
      unfold probeOK
      cases he : (p.Do j req).err with
      | some e => rfl
      | none =>
        cases hr : (p.Do j req).resp with
        | none => rfl
        | some resp =>
          rcases h with h | h
          · exact absurd he h
          · simpa using h resp hr)
  refine ⟨tr, ?_, ?_⟩
  · unfold CheckHealth
    simp only [hreq]
    exact heq
  · rw [hc]
    have hz : doCalls [Call.setTimeout probeTimeout] = 0 := rfl
    rw [hz, Nat.zero_add]

/-- C13, instance: every call times out, with three attempts allowed. -/
theorem CheckHealth_critical_witness :
    ∃ tr, CheckHealth timeoutProber 3
        "http://endpoint-1.nai-admin.svc.cluster.local/v2/health/live" = (.Critical, tr)
      ∧ doCalls tr = 3 :=
  CheckHealth_critical timeoutProber 3
    "http://endpoint-1.nai-admin.svc.cluster.local/v2/health/live"
    ⟨"GET", "http://endpoint-1.nai-admin.svc.cluster.local/v2/health/live", []⟩ rfl
    (by intro j _; left; intro h; cases h)

/-- C14: for a target URL from which no GET request can be built, `CheckHealth`
returns Unknown, and the calls on the underlying client are the one `SetTimeout` of 5
seconds and nothing else: no transport call. -/
theorem CheckHealth_unknown (p : Prober) (maxAttempts : Nat) (endpointURL : String)
    (err : String)
    (hreq : p.NewRequest "GET" endpointURL = .error err) :
    CheckHealth p maxAttempts endpointURL = (.Unknown, [.setTimeout (5 * 1000000000)])
    ∧ doCalls [Call.setTimeout (5 * 1000000000)] = 0 := by
  refine ⟨?_, rfl⟩
  unfold CheckHealth
  simp only [hreq]
  rfl

/-- C14, instance: the URL ":www.abv" of the test. -/
theorem CheckHealth_unknown_witness :
    CheckHealth (demoProber 0) 3 ":www.abv" = (.Unknown, [.setTimeout (5 * 1000000000)])
    ∧ doCalls [Call.setTimeout (5 * 1000000000)] = 0 :=
  CheckHealth_unknown (demoProber 0) 3 ":www.abv" "missing protocol scheme" rfl

end Health

namespace Catalog

/-! ## Claims on the catalog controller -/

/-- C20: for a request body that binds and validates, `Create` calls
`catalogService.List` once, with the uniqueness options of the request. When that
lookup returns no error and at least one entry, the response carries a ValidationError
with one field error on "modelName" and `catalogService.Create` is not called; when the
lookup returns an error, the response carries that error and `catalogService.Create`
is not called; when it returns no error and no entry, `catalogService.Create` is
called with the request. So `catalogService.Create` is called only in the last case. -/
theorem Create_uniqueness (env : Env) (body : String) (catalog : CreateCatalogRequest)
    (hbind : env.ShouldBindJSON body = .ok catalog)
    (hvalid : env.Struct catalog = none) :
    (∀ entries count, env.List (uniquenessOptions env catalog) = (entries, count, none) →
      0 < entries.length →
      Create env body = [.list (uniquenessOptions env catalog),
        .httpResponse ⟨"", some ⟨.ValidationError,
          some (.fieldErrors [⟨"modelName", "ModelName with same ModelRevision already exists, provide different ModelName or ModelRevision"⟩]),
          "Failed to create new catalog entry"⟩, none⟩]
      ∧ creates (Create env body) = [])
    ∧ (∀ entries count err,
      env.List (uniquenessOptions env catalog) = (entries, count, some err) →
      Create env body = [.list (uniquenessOptions env catalog),
        .httpResponse ⟨"", some err, none⟩]
      ∧ creates (Create env body) = [])
    ∧ (∀ count, env.List (uniquenessOptions env catalog) = ([], count, none) →
      Create env body = [.list (uniquenessOptions env catalog), .create catalog,
        .httpResponse ⟨"Catalog created successfully", (env.Create catalog).2,
          some (env.Create catalog).1⟩]
      ∧ creates (Create env body) = [catalog])
    ∧ (creates (Create env body) ≠ [] →
      (env.List (uniquenessOptions env catalog)).2.2 = none
      ∧ (env.List (uniquenessOptions env catalog)).1 = []) := by
  have hA : ∀ entries count, env.List (uniquenessOptions env catalog) = (entries, count, none) →
      0 < entries.length →
      Create env body = [.list (uniquenessOptions env catalog),
        .httpResponse ⟨"", some ⟨.ValidationError,
          some (.fieldErrors [⟨"modelName", "ModelName with same ModelRevision already exists, provide different ModelName or ModelRevision"⟩]),
          "Failed to create new catalog entry"⟩, none⟩] := by
    intro entries count hl hpos
    unfold uniquenessOptions at hl
    unfold Create validateUniqueConstraints
    simp only [hbind, hvalid, hl]
    simp [hpos, uniquenessOptions]
  have hB : ∀ entries count err,
      env.List (uniquenessOptions env catalog) = (entries, count, some err) →
      Create env body = [.list (uniquenessOptions env catalog),
        .httpResponse ⟨"", some err, none⟩] := by
    intro entries count err hl
    unfold uniquenessOptions at hl
    unfold Create validateUniqueConstraints
    simp only [hbind, hvalid, hl]
    simp [uniquenessOptions]
  have hC : ∀ count, env.List (uniquenessOptions env catalog) = ([], count, none) →
      Create env body = [.list (uniquenessOptions env catalog), .create catalog,
        .httpResponse ⟨"Catalog created successfully", (env.Create catalog).2,
          some (env.Create catalog).1⟩] := by
    intro count hl
    unfold uniquenessOptions at hl
    unfold Create validateUniqueConstraints
    simp only [hbind, hvalid, hl]
    simp [uniquenessOptions]
  refine ⟨?_, ?_, ?_, ?_⟩
  · intro entries count hl hpos
    refine ⟨hA entries count hl hpos, ?_⟩
    rw [hA entries count hl hpos]; rfl
  · intro entries count err hl
    refine ⟨hB entries count err hl, ?_⟩
    rw [hB entries count err hl]; rfl
  · intro count hl
    refine ⟨hC count hl, ?_⟩
    rw [hC count hl]; rfl
  · intro hne
    rcases hl : env.List (uniquenessOptions env catalog) with ⟨entries, count, err⟩
    cases err with
    | some err =>
      rw [hB entries count err hl] at hne
      exact absurd rfl hne
    | none =>
      cases entries with
      | nil => exact ⟨rfl, rfl⟩
      | cons x xs =>
        rw [hA (x :: xs) count hl (by simp)] at hne
        exact absurd rfl hne

/-- C20, instance: the lookup finds the Mistral entry already in the catalog. -/
theorem Create_uniqueness_witness :
    Create (catalogEnv (["mistral"], 1, none)) "body"
      = [.list (uniquenessOptions (catalogEnv (["mistral"], 1, none))
            ⟨"mistralai/Mistral-7B-Instruct-v0.2", "main", ""⟩),
        .httpResponse ⟨"", some ⟨.ValidationError,
          some (.fieldErrors [⟨"modelName", "ModelName with same ModelRevision already exists, provide different ModelName or ModelRevision"⟩]),
          "Failed to create new catalog entry"⟩, none⟩]
    ∧ creates (Create (catalogEnv (["mistral"], 1, none)) "body") = [] :=
  (Create_uniqueness (catalogEnv (["mistral"], 1, none)) "body"
    ⟨"mistralai/Mistral-7B-Instruct-v0.2", "main", ""⟩ rfl rfl).1
    ["mistral"] 1 rfl (by decide)

end Catalog

namespace Client

/-! ## Claims on the timeout, on `Do` and on a non-positive bound -/

/-- C27: for every duration t and every client, `GetTimeout` after `SetTimeout(t)` on
that client returns t. -/
theorem GetTimeout_SetTimeout (c : client) (t : Int) :
    (c.SetTimeout t).GetTimeout = t := by
  rfl

theorem reads_append (a b : List Event) : reads (a ++ b) = reads a + reads b := by
  simp [reads]

theorem closes_append (a b : List Event) : closes (a ++ b) = closes a + closes b := by
  simp [closes]

theorem obtained_succ (net : Net) (req : Request) (k : Nat) :
    obtained net req (k + 1)
      = obtained net req k + (if (net.RoundTrip k req).isOk = true then 1 else 0) := by
  unfold obtained
  rw [List.range_succ, List.countP_append]
  by_cases h : (net.RoundTrip k req).isOk = true <;> simp [h]

/-- One `Do` keeps the account of drained and closed bodies: after it, as many bodies
were read and as many closed as responses were obtained. -/
theorem Do_released (net : Net) (tr : List Event) (req : Request)
    (hr : reads tr = obtained net req (attempts tr))
    (hc : closes tr = obtained net req (attempts tr)) :
    reads (Do net tr req).2 = obtained net req (attempts (Do net tr req).2)
    ∧ closes (Do net tr req).2 = obtained net req (attempts (Do net tr req).2) := by
  rw [Do_attempts, obtained_succ]
  unfold Do
  cases h : net.RoundTrip (attempts tr) req with
  | error e =>
    simp only [reads_append, closes_append, hr, hc]
    simp [reads, closes, Event.isReadBody, Event.isCloseBody, Except.isOk, Except.toBool]
  | ok resp =>
    rcases resp with ⟨status, body⟩
    cases body <;>
    · simp only [reads_append, closes_append, hr, hc]
      simp [reads, closes, Event.isReadBody, Event.isCloseBody, Except.isOk, Except.toBool]

theorem leave_reads (resp : Option Response) (defers : Nat) (result : Option String)
    (tr : List Event) : reads (leave resp defers result tr).2 = reads tr := by
  cases resp with
  | none => rfl
  | some r =>
    simp only [leave, reads_append]
    simp [reads, List.countP_replicate, Event.isReadBody]

theorem leave_closes (resp : Option Response) (defers : Nat) (result : Option String)
    (tr : List Event) : closes (leave resp defers result tr).2 = closes tr := by
  cases resp with
  | none => rfl
  | some r =>
    simp only [leave, closes_append]
    simp [closes, List.countP_replicate, Event.isCloseBody]

/-- The retry loop keeps the account: whatever way it ends, every response obtained by
an attempt has had its body read and closed by `Do`. -/
theorem retryLoop_released (net : Net) (url method : String)
    (headers : List (String × String)) (n d : Int) (req0 : Request)
    (hreq : net.NewRequest method url = .ok req0) :
    ∀ (fuel : Nat) (i : Int) (resp : Option Response) (defers : Nat) (tr : List Event)
      (out : Option String × List Event),
      retryLoop net url method headers n d fuel i resp defers tr = some out →
      reads tr = obtained net (sentRequest headers req0) (attempts tr) →
      closes tr = obtained net (sentRequest headers req0) (attempts tr) →
      reads out.2 = obtained net (sentRequest headers req0) (attempts out.2)
      ∧ closes out.2 = obtained net (sentRequest headers req0) (attempts out.2) := by
  intro fuel
  induction fuel with
  | zero =>
    intro i resp defers tr out h hr hc
    unfold retryLoop at h
    by_cases hi : i < n
    · simp [hi] at h
    · simp only [hi, if_false, Option.some.injEq] at h
      rw [← h, leave_reads, leave_closes, leave_attempts]
      exact ⟨hr, hc⟩
  | succ f ih =>
    intro i resp defers tr out h hr hc
    unfold retryLoop at h
    by_cases hi : i < n
    · simp only [hi, if_true, hreq] at h
      have hA : attempts (tr ++ [Event.newRequest method url]) = attempts tr := by
        simp [attempts, Event.isRoundTrip]
      have hr1 : reads (tr ++ [Event.newRequest method url])
          = obtained net (sentRequest headers req0)
              (attempts (tr ++ [Event.newRequest method url])) := by
        rw [hA, reads_append, hr]; simp [reads, Event.isReadBody]
      have hc1 : closes (tr ++ [Event.newRequest method url])
          = obtained net (sentRequest headers req0)
              (attempts (tr ++ [Event.newRequest method url])) := by
        rw [hA, closes_append, hc]; simp [closes, Event.isCloseBody]
      obtain ⟨hr2, hc2⟩ := Do_released net (tr ++ [Event.newRequest method url])
        (sentRequest headers req0) hr1 hc1
      by_cases hok : attemptOK (Do net (tr ++ [Event.newRequest method url])
          (sentRequest headers req0)).1 = true
      · simp only [hok, if_true, Option.some.injEq] at h
        rw [← h, leave_reads, leave_closes, leave_attempts]
        exact ⟨hr2, hc2⟩
      · simp only [hok, Bool.false_eq_true, if_false] at h
        refine ih _ _ _ _ out h ?_ ?_
        · rw [reads_append, attempts_append, hr2]
          simp [reads, attempts, Event.isReadBody, Event.isRoundTrip]
        · rw [closes_append, attempts_append, hc2]
          simp [closes, attempts, Event.isCloseBody, Event.isRoundTrip]
    · simp only [hi, if_false, Option.some.injEq] at h
      rw [← h, leave_reads, leave_closes, leave_attempts]
      exact ⟨hr, hc⟩

/-- C29: what `Do` does with the answer of the transport call. On a response whose body
reads to its end, it returns the response, those bytes and no error; on a response
whose body fails to read, the response, a nil body and the read error; in both cases
the body was read and then closed before `Do` returned. On a transport error it
returns a nil response, a nil body and that error. Hence, for a request that can be
built, `MakeRequestWithRetry` returns with as many bodies read and as many closed as
its attempts obtained responses, the non-terminal attempts included. -/
theorem Do_drains_and_closes (net : Net) (url method : String)
    (headers : List (String × String)) (n d : Int) (req0 : Request)
    (hreq : net.NewRequest method url = .ok req0) :
    (∀ tr req resp bytes, net.RoundTrip (attempts tr) req = .ok resp →
      resp.Body = .ok bytes →
      Do net tr req
        = (⟨some resp, some bytes, none⟩, tr ++ [.roundTrip req, .readBody, .closeBody]))
    ∧ (∀ tr req resp e, net.RoundTrip (attempts tr) req = .ok resp →
      resp.Body = .error e →
      Do net tr req
        = (⟨some resp, none, some e⟩, tr ++ [.roundTrip req, .readBody, .closeBody]))
    ∧ (∀ tr req err, net.RoundTrip (attempts tr) req = .error err →
      Do net tr req = (⟨none, none, some err⟩, tr ++ [.roundTrip req]))
    ∧ ∃ out, MakeRequestWithRetry net url method headers n d = some out
        ∧ reads out.2 = obtained net (sentRequest headers req0) (attempts out.2)
        ∧ closes out.2 = obtained net (sentRequest headers req0) (attempts out.2) := by
  refine ⟨?_, ?_, ?_, ?_⟩
  · intro tr req resp bytes h hb
    unfold Do
    rw [h]
    simp only [hb]
  · intro tr req resp e h hb
    unfold Do
    rw [h]
    simp only [hb]
  · intro tr req err h
    unfold Do
    rw [h]
  · obtain ⟨out, ho, _, _, _⟩ := retryLoop_total net url method headers n d n.toNat 0 none 0 []
      (by omega)
    refine ⟨out, ho, ?_⟩
    exact retryLoop_released net url method headers n d req0 hreq n.toNat 0 none 0 [] out ho
      rfl rfl

/-- C29, instance: a refused connection, then a 500 whose body breaks, then a 200:
three attempts, two responses obtained, two bodies read and two closed. -/
theorem Do_drains_and_closes_witness :
    ∃ out, MakeRequestWithRetry brokenNet "http://srv" "GET" [] 3 1 = some out
      ∧ reads out.2 = obtained brokenNet (sentRequest [] ⟨"GET", "http://srv", []⟩)
          (attempts out.2)
      ∧ closes out.2 = obtained brokenNet (sentRequest [] ⟨"GET", "http://srv", []⟩)
          (attempts out.2) :=
  (Do_drains_and_closes brokenNet "http://srv" "GET" [] 3 1 ⟨"GET", "http://srv", []⟩
    rfl).2.2.2

/-- C30: for every bound `maxRetries <= 0`, whatever the URL and the method,
`MakeRequestWithRetry` returns the error "failed to make request after multiple
retries" with an empty trace: no request is built, so a malformed URL is not
reported, and there is no transport call and no sleep. -/
theorem MakeRequestWithRetry_nonpositive_bound (net : Net) (url method : String)
    (headers : List (String × String)) (n d : Int) (hn : n ≤ 0) :
    MakeRequestWithRetry net url method headers n d
      = some (some "failed to make request after multiple retries", [])
    ∧ builds ([] : List Event) = 0 ∧ attempts ([] : List Event) = 0
    ∧ sleeps ([] : List Event) = 0 := by
  refine ⟨?_, rfl, rfl, rfl⟩
  unfold MakeRequestWithRetry
  rw [retryLoop_exhausted net url method headers n d _ 0 none 0 [] (by omega)]
  rfl

/-- C30, instance: bound 0 and the malformed URL ":". -/
theorem MakeRequestWithRetry_nonpositive_bound_witness :
    MakeRequestWithRetry (flakyNet 0) ":" "POST" [] 0 1
      = some (some "failed to make request after multiple retries", [])
    ∧ builds ([] : List Event) = 0 ∧ attempts ([] : List Event) = 0
    ∧ sleeps ([] : List Event) = 0 :=
  MakeRequestWithRetry_nonpositive_bound (flakyNet 0) ":" "POST" [] 0 1 (by decide)

end Client

namespace APIKey

/-! ## Claims on the API key controller -/

/-- C21: for a request body that binds and validates, `Create` calls
`APIKeyService.List` once, with the empty user context and the options built from the
equality filters name = requested name and owner id = ID of the calling user. When
that lookup returns no error and at least one key, the response carries a
ValidationError whose one field error, on "name", reads "name already exists, please
provide a different name", and `APIKeyService.Create` is not called; when the lookup
returns an error, the response carries that error and `APIKeyService.Create` is not
called. -/
theorem APIKey_Create_uniqueness (env : Env) (userContext : UserContext) (body : String)
    (req : APIKeyCreateRequest)
    (hbind : env.ShouldBindJSON body = .ok req)
    (hvalid : env.Struct req = none) :
    lists (Create env userContext body)
      = [(⟨"", "", ""⟩, env.AddEqualToFiltersFromMap ⟨[]⟩
          [(env.Name, [req.Name]), (env.OwnerID, [userContext.UserID])]
          [env.Name, env.OwnerID])]
    ∧ (∀ keys count,
      env.List ⟨"", "", ""⟩ (uniquenessOptions env userContext req) = (keys, count, none) →
      0 < keys.length →
      Create env userContext body
        = [.list ⟨"", "", ""⟩ (uniquenessOptions env userContext req),
          .httpResponse ⟨"", some ⟨.ValidationError,
            some (.fieldErrors
              [⟨"name", "name already exists, please provide a different name"⟩]),
            "failed to create new API Key"⟩, none⟩]
      ∧ creates (Create env userContext body) = [])
    ∧ (∀ keys count err,
      env.List ⟨"", "", ""⟩ (uniquenessOptions env userContext req)
        = (keys, count, some err) →
      Create env userContext body
        = [.list ⟨"", "", ""⟩ (uniquenessOptions env userContext req),
          .httpResponse ⟨"", some err, none⟩]
      ∧ creates (Create env userContext body) = []) := by
  have hA : ∀ keys count,
      env.List ⟨"", "", ""⟩ (uniquenessOptions env userContext req) = (keys, count, none) →
      0 < keys.length →
      Create env userContext body
        = [.list ⟨"", "", ""⟩ (uniquenessOptions env userContext req),
          .httpResponse ⟨"", some ⟨.ValidationError,
            some (.fieldErrors
              [⟨"name", "name already exists, please provide a different name"⟩]),
            "failed to create new API Key"⟩, none⟩] := by
    intro keys count hl hpos
    unfold uniquenessOptions at hl
    unfold Create validateUniqueConstraints
    simp only [hbind, hvalid, hl]
    simp only [hpos, gt_iff_lt, if_true, List.nil_append, uniquenessOptions]
    rfl
  have hB : ∀ keys count err,
      env.List ⟨"", "", ""⟩ (uniquenessOptions env userContext req)
        = (keys, count, some err) →
      Create env userContext body
        = [.list ⟨"", "", ""⟩ (uniquenessOptions env userContext req),
          .httpResponse ⟨"", some err, none⟩] := by
    intro keys count err hl
    unfold uniquenessOptions at hl
    unfold Create validateUniqueConstraints
    simp only [hbind, hvalid, hl]
    simp [uniquenessOptions]
  refine ⟨?_, ?_, ?_⟩
  · unfold Create validateUniqueConstraints
    simp only [hbind, hvalid]
    rcases hl : env.List ⟨"", "", ""⟩ (env.AddEqualToFiltersFromMap ⟨[]⟩
      [(env.Name, [req.Name]), (env.OwnerID, [userContext.UserID])]
      [env.Name, env.OwnerID]) with ⟨keys, count, err⟩
    cases err with
    | some err => simp [lists]
    | none =>
      by_cases hpos : keys.length > 0 <;> simp [hpos, lists]
  · intro keys count hl hpos
    refine ⟨hA keys count hl hpos, ?_⟩
    rw [hA keys count hl hpos]; rfl
  · intro keys count err hl
    refine ⟨hB keys count err hl, ?_⟩
    rw [hB keys count err hl]; rfl

/-- C21, instance: the user "u-42" asks for the key "key1", which they already own. -/
theorem APIKey_Create_uniqueness_witness :
    Create (apiKeyEnv (["1"], 1, none)) ⟨"u-42", "alice", "MLAdmin"⟩ "body"
      = [.list ⟨"", "", ""⟩
          (uniquenessOptions (apiKeyEnv (["1"], 1, none)) ⟨"u-42", "alice", "MLAdmin"⟩
            ⟨"key1", ""⟩),
        .httpResponse ⟨"", some ⟨.ValidationError,
          some (.fieldErrors
            [⟨"name", "name already exists, please provide a different name"⟩]),
          "failed to create new API Key"⟩, none⟩]
    ∧ creates (Create (apiKeyEnv (["1"], 1, none)) ⟨"u-42", "alice", "MLAdmin"⟩ "body") = [] :=
  (APIKey_Create_uniqueness (apiKeyEnv (["1"], 1, none)) ⟨"u-42", "alice", "MLAdmin"⟩ "body"
    ⟨"key1", ""⟩ rfl rfl).2.1 ["1"] 1 rfl (by decide)

end APIKey

namespace Cluster

/-! ## Claims on the cluster controller -/

/-- C22: for a request body that binds and validates and has an EULA section,
`UpdateClusterConfig` first reads the stored EULA configuration. When the stored EULA
is already accepted, the response carries an InvalidValueError with the message
"Cannot update already accepted eula"; when reading the configuration fails, the
response carries that error. In both cases the trace is the one `GetConfig` call and
the response: `clusterService.UpdateConfig` is not called. -/
theorem UpdateClusterConfig_eula_guard (env : Env) (userContext : APIKey.UserContext)
    (body : String) (req : ClusterConfigUpdateRequest) (eula : EULAAcceptRequest)
    (hbind : env.ShouldBindJSON body = .ok req)
    (hvalid : env.Struct req = none)
    (heula : req.EULA = some eula) :
    (∀ stored current, env.GetConfig (eulaOptions env) = (stored, none) →
      stored.EULA = some current → current.Accepted = true →
      UpdateClusterConfig env userContext body
        = .ok [.getConfig (eulaOptions env),
            .httpResponse ⟨"Cluster config info updated successfully",
              some ⟨.InvalidValueError, none, "Cannot update already accepted eula",
                "Cannot update already accepted eula"⟩⟩]
      ∧ updates [Event.getConfig (eulaOptions env),
            .httpResponse ⟨"Cluster config info updated successfully",
              some ⟨.InvalidValueError, none, "Cannot update already accepted eula",
                "Cannot update already accepted eula"⟩⟩] = [])
    ∧ (∀ stored err, env.GetConfig (eulaOptions env) = (stored, some err) →
      UpdateClusterConfig env userContext body
        = .ok [.getConfig (eulaOptions env),
            .httpResponse ⟨"Cluster config info updated successfully", some err⟩]
      ∧ updates [Event.getConfig (eulaOptions env),
            .httpResponse ⟨"Cluster config info updated successfully", some err⟩] = []) := by
  constructor
  · intro stored current hget hcur hacc
    refine ⟨?_, rfl⟩
    unfold eulaOptions at hget
    unfold UpdateClusterConfig buildEULAConfig
    simp only [hbind, hvalid, heula, hget, hcur, hacc, if_true]
    rfl
  · intro stored err hget
    refine ⟨?_, rfl⟩
    unfold eulaOptions at hget
    unfold UpdateClusterConfig buildEULAConfig
    simp only [hbind, hvalid, heula, hget]
    rfl

/-- C22, instance: the request accepts the EULA while the stored EULA is accepted. -/
theorem UpdateClusterConfig_eula_guard_witness :
    UpdateClusterConfig
        (clusterEnv ⟨some ⟨some true, "system", "nutanix"⟩, none, none⟩
          ⟨some ⟨true, some 1690000000, "system", "nutanix"⟩, none, none⟩ none)
        ⟨"system", "system", "SuperAdmin"⟩ "body"
      = .ok [.getConfig (eulaOptions
            (clusterEnv ⟨some ⟨some true, "system", "nutanix"⟩, none, none⟩
              ⟨some ⟨true, some 1690000000, "system", "nutanix"⟩, none, none⟩ none)),
          .httpResponse ⟨"Cluster config info updated successfully",
            some ⟨.InvalidValueError, none, "Cannot update already accepted eula",
              "Cannot update already accepted eula"⟩⟩]
    ∧ updates [Event.getConfig (eulaOptions
            (clusterEnv ⟨some ⟨some true, "system", "nutanix"⟩, none, none⟩
              ⟨some ⟨true, some 1690000000, "system", "nutanix"⟩, none, none⟩ none)),
          .httpResponse ⟨"Cluster config info updated successfully",
            some ⟨.InvalidValueError, none, "Cannot update already accepted eula",
              "Cannot update already accepted eula"⟩⟩] = [] :=
  (UpdateClusterConfig_eula_guard
    (clusterEnv ⟨some ⟨some true, "system", "nutanix"⟩, none, none⟩
      ⟨some ⟨true, some 1690000000, "system", "nutanix"⟩, none, none⟩ none)
    ⟨"system", "system", "SuperAdmin"⟩ "body"
    ⟨some ⟨some true, "system", "nutanix"⟩, none, none⟩ ⟨some true, "system", "nutanix"⟩
    rfl rfl rfl).1
    ⟨some ⟨true, some 1690000000, "system", "nutanix"⟩, none, none⟩
    ⟨true, some 1690000000, "system", "nutanix"⟩ rfl rfl rfl

end Cluster

namespace Cluster

/-- C28: for a request body that binds and validates and whose update goes through
(an EULA section finds a stored EULA that is not accepted; the `accepted` pointers of
the sections present are set), `UpdateClusterConfig` calls `clusterService.UpdateConfig`
once, for the calling user, with a configuration whose EULA, Pulse and Language
sections are present exactly when the request has them, the EULA carrying the
request's accepted flag, name and company, the Pulse its accepted flag and the
Language its name; and a request without an EULA section makes no
`clusterService.GetConfig` call. -/
theorem UpdateClusterConfig_sections (env : Env) (userContext : APIKey.UserContext)
    (body : String) (req : ClusterConfigUpdateRequest)
    (hbind : env.ShouldBindJSON body = .ok req)
    (hvalid : env.Struct req = none)
    (hE : ∀ e, req.EULA = some e →
      (∃ a, e.Accepted = some a)
      ∧ ∃ stored current, env.GetConfig (eulaOptions env) = (stored, none)
          ∧ stored.EULA = some current ∧ current.Accepted = false)
    (hP : ∀ p, req.Pulse = some p → ∃ a, p.Accepted = some a) :
    ∃ tr cfg, UpdateClusterConfig env userContext body = .ok tr
      ∧ updates tr = [(userContext, cfg)]
      ∧ (cfg.EULA.isSome = req.EULA.isSome)
      ∧ (cfg.Pulse.isSome = req.Pulse.isSome)
      ∧ (cfg.Language.isSome = req.Language.isSome)
      ∧ (∀ e, req.EULA = some e → ∃ ce, cfg.EULA = some ce
          ∧ some ce.Accepted = e.Accepted ∧ ce.Name = e.Name ∧ ce.Company = e.Company)
      ∧ (∀ p, req.Pulse = some p → ∃ cp, cfg.Pulse = some cp
          ∧ some cp.Accepted = p.Accepted)
      ∧ (∀ l, req.Language = some l → ∃ cl, cfg.Language = some cl ∧ cl.Name = l.Name)
      ∧ (req.EULA = none → getConfigs tr = []) := by
  rcases req with ⟨eula, pulse, language⟩
  unfold UpdateClusterConfig
  simp only [hbind, hvalid]
  cases eula with
  | none =>
    cases pulse with
    | none =>
      cases language with
      | none =>
        simp only [finishUpdate]
        refine ⟨_, _, rfl, rfl, rfl, rfl, rfl, ?_, ?_, ?_, ?_⟩
        · intro x h; cases h
        · intro x h; cases h
        · intro x h; cases h
        · intro _; rfl
      | some l =>
        simp only [finishUpdate]
        refine ⟨_, _, rfl, rfl, rfl, rfl, rfl, ?_, ?_, ?_, ?_⟩
        · intro x h; cases h
        · intro x h; cases h
        · intro x h; cases h; exact ⟨_, rfl, rfl⟩
        · intro _; rfl
    | some p =>
      obtain ⟨a, ha⟩ := hP p rfl
      cases language with
      | none =>
        simp only [finishUpdate, buildPulseConfig, ha]
        refine ⟨_, _, rfl, rfl, rfl, rfl, rfl, ?_, ?_, ?_, ?_⟩
        · intro x h; cases h
        · intro x h; cases h; exact ⟨_, rfl, ha.symm⟩
        · intro x h; cases h
        · intro _; rfl
      | some l =>
        simp only [finishUpdate, buildPulseConfig, ha]
        refine ⟨_, _, rfl, rfl, rfl, rfl, rfl, ?_, ?_, ?_, ?_⟩
        · intro x h; cases h
        · intro x h; cases h; exact ⟨_, rfl, ha.symm⟩
        · intro x h; cases h; exact ⟨_, rfl, rfl⟩
        · intro _; rfl
  | some e =>
    obtain ⟨⟨ae, hae⟩, stored, current, hget, hcur, hacc⟩ := hE e rfl
    unfold eulaOptions at hget
    have hb : buildEULAConfig env e ⟨none, none, none⟩ []
        = .ok (none, ⟨some ⟨ae, some (env.Now 0), e.Name, e.Company⟩, none, none⟩,
            [.getConfig (eulaOptions env), .now]) := by
      unfold buildEULAConfig
      simp only [hget, hcur, hacc, hae]
      rfl
    simp only [hb]
    cases pulse with
    | none =>
      cases language with
      | none =>
        simp only [finishUpdate]
        refine ⟨_, _, rfl, rfl, rfl, rfl, rfl, ?_, ?_, ?_, ?_⟩
        · intro x h; cases h; exact ⟨_, rfl, hae.symm, rfl, rfl⟩
        · intro x h; cases h
        · intro x h; cases h
        · intro h; cases h
      | some l =>
        simp only [finishUpdate]
        refine ⟨_, _, rfl, rfl, rfl, rfl, rfl, ?_, ?_, ?_, ?_⟩
        · intro x h; cases h; exact ⟨_, rfl, hae.symm, rfl, rfl⟩
        · intro x h; cases h
        · intro x h; cases h; exact ⟨_, rfl, rfl⟩
        · intro h; cases h
    | some p =>
      obtain ⟨a, ha⟩ := hP p rfl
      cases language with
      | none =>
        simp only [finishUpdate, buildPulseConfig, ha]
        refine ⟨_, _, rfl, rfl, rfl, rfl, rfl, ?_, ?_, ?_, ?_⟩
        · intro x h; cases h; exact ⟨_, rfl, hae.symm, rfl, rfl⟩
        · intro x h; cases h; exact ⟨_, rfl, ha.symm⟩
        · intro x h; cases h
        · intro h; cases h
      | some l =>
        simp only [finishUpdate, buildPulseConfig, ha]
        refine ⟨_, _, rfl, rfl, rfl, rfl, rfl, ?_, ?_, ?_, ?_⟩
        · intro x h; cases h; exact ⟨_, rfl, hae.symm, rfl, rfl⟩
        · intro x h; cases h; exact ⟨_, rfl, ha.symm⟩
        · intro x h; cases h; exact ⟨_, rfl, rfl⟩
        · intro h; cases h

/-- C28, instance: a request with a Pulse and a Language section and no EULA section. -/
theorem UpdateClusterConfig_sections_witness :
    ∃ tr cfg,
      UpdateClusterConfig
          (clusterEnv ⟨none, some ⟨some true⟩, some ⟨"English"⟩⟩ ⟨none, none, none⟩ none)
          ⟨"system", "system", "SuperAdmin"⟩ "body" = .ok tr
      ∧ updates tr = [(⟨"system", "system", "SuperAdmin"⟩, cfg)]
      ∧ (cfg.EULA.isSome
          = (⟨none, some ⟨some true⟩, some ⟨"English"⟩⟩ : ClusterConfigUpdateRequest).EULA.isSome)
      ∧ (cfg.Pulse.isSome
          = (⟨none, some ⟨some true⟩, some ⟨"English"⟩⟩ : ClusterConfigUpdateRequest).Pulse.isSome)
      ∧ (cfg.Language.isSome
          = (⟨none, some ⟨some true⟩, some ⟨"English"⟩⟩ :
              ClusterConfigUpdateRequest).Language.isSome)
      ∧ (∀ e, (⟨none, some ⟨some true⟩, some ⟨"English"⟩⟩ : ClusterConfigUpdateRequest).EULA
            = some e → ∃ ce, cfg.EULA = some ce
          ∧ some ce.Accepted = e.Accepted ∧ ce.Name = e.Name ∧ ce.Company = e.Company)
      ∧ (∀ p, (⟨none, some ⟨some true⟩, some ⟨"English"⟩⟩ : ClusterConfigUpdateRequest).Pulse
            = some p → ∃ cp, cfg.Pulse = some cp ∧ some cp.Accepted = p.Accepted)
      ∧ (∀ l, (⟨none, some ⟨some true⟩, some ⟨"English"⟩⟩ : ClusterConfigUpdateRequest).Language
            = some l → ∃ cl, cfg.Language = some cl ∧ cl.Name = l.Name)
      ∧ ((⟨none, some ⟨some true⟩, some ⟨"English"⟩⟩ : ClusterConfigUpdateRequest).EULA = none
          → getConfigs tr = []) :=
  UpdateClusterConfig_sections
    (clusterEnv ⟨none, some ⟨some true⟩, some ⟨"English"⟩⟩ ⟨none, none, none⟩ none)
    ⟨"system", "system", "SuperAdmin"⟩ "body" ⟨none, some ⟨some true⟩, some ⟨"English"⟩⟩
    rfl rfl (by intro e h; cases h)
    (by intro p h; injection h with h; subst h; exact ⟨true, rfl⟩)

end Cluster

namespace Catalog

/-- C23: `CatalogController.List` on a query that parses to the options `listOptions`.
When these hold no filter on "deprecated", `catalogService.List` is called with the
options that `AddEqualToFiltersFromMap` builds from them by adding the equality filter
deprecated = "false"; when they hold one, `setDeprecatedFalseIfUnset` leaves them
unchanged and they are passed as they are. As the added filter is one that
`GetFilterFromField` finds, applying `setDeprecatedFalseIfUnset` twice gives the same
options as applying it once. -/
theorem List_deprecated_default (env : Env) (q : QueryEnv) (query : String)
    (listOptions : ListOptions)
    (hq : q.GetQueryOptionsFromCtx query ["model_name", "deprecated", "source_hub"]
      = .ok listOptions)
    (hfound : ∀ lo, (q.GetFilterFromField
      (env.AddEqualToFiltersFromMap lo [("deprecated", ["false"])] ["deprecated"])
      "deprecated").Field ≠ "") :
    ((q.GetFilterFromField listOptions "deprecated").Field = "" →
      listCalls (CatalogController.List env q query)
        = [env.AddEqualToFiltersFromMap listOptions [("deprecated", ["false"])]
            ["deprecated"]])
    ∧ ((q.GetFilterFromField listOptions "deprecated").Field ≠ "" →
      setDeprecatedFalseIfUnset env q listOptions = listOptions
      ∧ listCalls (CatalogController.List env q query) = [listOptions])
    ∧ (∀ lo, setDeprecatedFalseIfUnset env q (setDeprecatedFalseIfUnset env q lo)
        = setDeprecatedFalseIfUnset env q lo) := by
  refine ⟨?_, ?_, ?_⟩
  · intro h
    unfold CatalogController.List
    simp only [hq]
    simp [listCalls, setDeprecatedFalseIfUnset, h]
  · intro h
    have hs : setDeprecatedFalseIfUnset env q listOptions = listOptions := by
      unfold setDeprecatedFalseIfUnset
      simp [h]
    refine ⟨hs, ?_⟩
    unfold CatalogController.List
    simp only [hq, hs]
    simp [listCalls]
  · intro lo
    by_cases h : (q.GetFilterFromField lo "deprecated").Field = ""
    · have h1 : setDeprecatedFalseIfUnset env q lo
          = env.AddEqualToFiltersFromMap lo [("deprecated", ["false"])] ["deprecated"] := by
        unfold setDeprecatedFalseIfUnset
        simp [h]
      rw [h1]
      unfold setDeprecatedFalseIfUnset
      simp [hfound lo]
    · have h1 : setDeprecatedFalseIfUnset env q lo = lo := by
        unfold setDeprecatedFalseIfUnset
        simp [h]
      rw [h1, h1]

theorem demo_filter_found (found : List String × Int × Option Error) :
    ∀ lo, (demoQueryEnv.GetFilterFromField
      ((catalogEnv found).AddEqualToFiltersFromMap lo [("deprecated", ["false"])]
        ["deprecated"]) "deprecated").Field ≠ "" := by
  intro lo
  have hfind : ∀ (fs : List Filter),
      ∃ f, (fs ++ [(⟨"deprecated", "eq", ["false"]⟩ : Filter)]).find?
          (fun f => f.Field == "deprecated") = some f ∧ f.Field = "deprecated" := by
    intro fs
    induction fs with
    | nil => exact ⟨_, rfl, rfl⟩
    | cons x xs ih =>
      by_cases hx : x.Field = "deprecated"
      · exact ⟨x, by simp [List.find?, hx], hx⟩
      · obtain ⟨f, hf, hfd⟩ := ih
        have hb : (x.Field == "deprecated") = false := by simpa using hx
        exact ⟨f, by simp [List.find?, hb, hf], hfd⟩
  obtain ⟨f, hf, hfd⟩ := hfind lo.Filters
  have hadd : ((catalogEnv found).AddEqualToFiltersFromMap lo [("deprecated", ["false"])]
      ["deprecated"]).Filters = lo.Filters ++ [⟨"deprecated", "eq", ["false"]⟩] := by
    simp [catalogEnv]
  show (match (((catalogEnv found).AddEqualToFiltersFromMap lo [("deprecated", ["false"])]
      ["deprecated"]).Filters).find? (fun f : Filter => f.Field == "deprecated") with
    | some f => f
    | none => (⟨"", "", []⟩ : Filter)).Field ≠ ""
  rw [hadd, hf]
  simp [hfd]

/-- C23, instance: a query without a "deprecated" parameter. -/
theorem List_deprecated_default_witness :
    listCalls (CatalogController.List (catalogEnv ([], 0, none)) demoQueryEnv "")
      = [(catalogEnv ([], 0, none)).AddEqualToFiltersFromMap ⟨[]⟩
          [("deprecated", ["false"])] ["deprecated"]] :=
  (List_deprecated_default (catalogEnv ([], 0, none)) demoQueryEnv "" ⟨[]⟩ rfl
    (demo_filter_found ([], 0, none))).1 rfl

end Catalog

namespace Endpoint

/-! ## Claims on the endpoint controller -/

/-- C24: the force flag of `Delete`. Without a "force" query parameter
`endpointService.Delete` is called with false; with a parameter that `ParseBool`
accepts it is called with the parsed value; with a parameter that is not a valid
boolean, such as "random", the response carries a ParsingError that wraps the parse
error and `endpointService.Delete` is not called. -/
theorem Delete_force_flag (env : Env) (userContext : APIKey.UserContext)
    (endpointID : String) :
    Delete env userContext endpointID none
      = [.delete userContext endpointID false,
          .httpResponse ⟨"Endpoint delete triggered successfully",
            env.Delete userContext endpointID false⟩]
    ∧ (∀ s b, ParseBool s = .ok b →
      Delete env userContext endpointID (some s)
        = [.delete userContext endpointID b,
            .httpResponse ⟨"Endpoint delete triggered successfully",
              env.Delete userContext endpointID b⟩])
    ∧ (∀ s err, ParseBool s = .error err →
      Delete env userContext endpointID (some s)
        = [.httpResponse ⟨"", some ⟨.ParsingError, some (.numError err),
            "Failed to delete endpoint", ""⟩⟩]
      ∧ deletes (Delete env userContext endpointID (some s)) = [])
    ∧ ParseBool "true" = .ok true
    ∧ ParseBool "random" = .error ⟨"ParseBool", "random", "invalid syntax"⟩ := by
  refine ⟨rfl, ?_, ?_, rfl, rfl⟩
  · intro s b h
    unfold Delete
    simp only [Option.getD_some, h]
  · intro s err h
    have hd : Delete env userContext endpointID (some s)
        = [.httpResponse ⟨"", some ⟨.ParsingError, some (.numError err),
            "Failed to delete endpoint", ""⟩⟩] := by
      unfold Delete
      simp only [Option.getD_some, h]
    exact ⟨hd, by rw [hd]; rfl⟩

/-- C24, instance: the query "force=random". -/
theorem Delete_force_flag_witness :
    Delete endpointEnv ⟨"u-42", "alice", "MLAdmin"⟩ "e-1" (some "random")
      = [.httpResponse ⟨"", some ⟨.ParsingError,
          some (.numError ⟨"ParseBool", "random", "invalid syntax"⟩),
          "Failed to delete endpoint", ""⟩⟩]
    ∧ deletes (Delete endpointEnv ⟨"u-42", "alice", "MLAdmin"⟩ "e-1" (some "random")) = [] :=
  (Delete_force_flag endpointEnv ⟨"u-42", "alice", "MLAdmin"⟩ "e-1").2.2.1 "random"
    ⟨"ParseBool", "random", "invalid syntax"⟩ rfl

/-- C25: `ValidateEndpoint` on an endpoint name. When the length of the name exceeds
`KserveISVCNameLength`, the response carries a ValidationError with exactly one field
error, on "name", and `endpointService.ValidateEndpointName` is not called; for every
other name the service is called once with the name and the response carries exactly
what it returns. -/
theorem ValidateEndpoint_length (env : Env) (endpointName : String) :
    ((endpointName.utf8ByteSize : Int) > env.KserveISVCNameLength →
      (∃ msg, ValidateEndpoint env endpointName
        = [.httpResponse ⟨"Endpoint name validated successfully",
            some ⟨.ValidationError, some (.fieldErrors [⟨"name", msg⟩]),
              "Invalid endpoint name", msg⟩⟩])
      ∧ validations (ValidateEndpoint env endpointName) = [])
    ∧ (¬ (endpointName.utf8ByteSize : Int) > env.KserveISVCNameLength →
      ValidateEndpoint env endpointName
        = [.validateEndpointName endpointName,
            .httpResponse ⟨"Endpoint name validated successfully",
              env.ValidateEndpointName endpointName⟩]
      ∧ validations (ValidateEndpoint env endpointName) = [endpointName]) := by
  constructor
  · intro h
    have hv : ValidateEndpoint env endpointName
        = [.httpResponse ⟨"Endpoint name validated successfully",
            some ⟨.ValidationError, some (.fieldErrors [⟨"name",
              "Length of name should be less than " ++ toString env.KserveISVCNameLength
                ++ " for the name " ++ endpointName⟩]),
              "Invalid endpoint name",
              "Length of name should be less than " ++ toString env.KserveISVCNameLength
                ++ " for the name " ++ endpointName⟩⟩] := by
      unfold ValidateEndpoint
      simp only [h, if_true]
    exact ⟨⟨_, hv⟩, by rw [hv]; rfl⟩
  · intro h
    have hv : ValidateEndpoint env endpointName
        = [.validateEndpointName endpointName,
            .httpResponse ⟨"Endpoint name validated successfully",
              env.ValidateEndpointName endpointName⟩] := by
      unfold ValidateEndpoint
      simp only [h, if_false]
    exact ⟨hv, by rw [hv]; rfl⟩

/-- C25, instance: the 52-byte name of the test, against a limit of 45. -/
theorem ValidateEndpoint_length_witness :
    (∃ msg, ValidateEndpoint endpointEnv "invalid-endpoint-name-length-more-than-allowed-limit"
      = [.httpResponse ⟨"Endpoint name validated successfully",
          some ⟨.ValidationError, some (.fieldErrors [⟨"name", msg⟩]),
            "Invalid endpoint name", msg⟩⟩])
    ∧ validations
        (ValidateEndpoint endpointEnv "invalid-endpoint-name-length-more-than-allowed-limit")
        = [] :=
  (ValidateEndpoint_length endpointEnv
    "invalid-endpoint-name-length-more-than-allowed-limit").1 (by decide)

end Endpoint

namespace Routes

/-! ## Claims on the route tables -/

/-- C26: the access level of each route of the catalog and cluster controllers. The
routes that modify state, POST /catalogs, DELETE /catalogs/:catalog_id and
PATCH /cluster/config, are registered once each with the super-admin level;
GET /cluster/health with the admin level; GET /catalogs, GET /catalogs/:catalog_id,
POST /catalogs/requirements, GET /cluster/info and GET /cluster/config with the
allow-all level. -/
theorem route_access_levels :
    accessOf CatalogController.route "POST" "/catalogs" = [.AllowSuperAdmin]
    ∧ accessOf CatalogController.route "DELETE" "/catalogs/:catalog_id" = [.AllowSuperAdmin]
    ∧ accessOf ClusterController.route "PATCH" "/cluster/config" = [.AllowSuperAdmin]
    ∧ accessOf ClusterController.route "GET" "/cluster/health" = [.AllowAdmin]
    ∧ accessOf CatalogController.route "GET" "/catalogs" = [.AllowAll]
    ∧ accessOf CatalogController.route "GET" "/catalogs/:catalog_id" = [.AllowAll]
    ∧ accessOf CatalogController.route "POST" "/catalogs/requirements" = [.AllowAll]
    ∧ accessOf ClusterController.route "GET" "/cluster/info" = [.AllowAll]
    ∧ accessOf ClusterController.route "GET" "/cluster/config" = [.AllowAll] := by
  decide

end Routes
